import Mathlib

/-!
Verification development for the MESH coordination engine
(`plugin/mesh/router.js`, `plugin/mesh/index.js`, the registry store and the
reputation client).  JavaScript numbers are modelled as `ℚ` (every value the
code manipulates here is an exact decimal), unix timestamps as `Int`,
JavaScript's `Map` as an insertion-ordered association list, and fallible
operations as `Option`/`Except`.  Wall-clock reads (`now()`) are threaded as
explicit parameters.
-/

namespace Mesh

/-! ## String utilities shared by the codec and the ranker -/

/-- A JavaScript `\s` whitespace character (ASCII fragment; the messages in
scope are ASCII). -/
def isJsWs (c : Char) : Bool :=
  c = ' ' || c = '\t' || c = '\n' || c = '\r' || c = '\x0b' || c = '\x0c'

/-- `String.prototype.trim` on the character list. -/
def trimChars (l : List Char) : List Char :=
  (((l.dropWhile isJsWs).reverse).dropWhile isJsWs).reverse

/-- `String.prototype.trim`. -/
def jsTrim (s : String) : String :=
  String.mk (trimChars s.toList)

/-- `String.prototype.toLowerCase` (ASCII). -/
def jsToLower (s : String) : String :=
  String.mk (s.toList.map Char.toLower)

/-! ## JavaScript/JSON value model

`JVal` models the JavaScript values flowing through the codec: `undef` is
`undefined` (an absent object property reads as `undef`), arrays are
`arrCons`-chains ending in `arrNil`, objects are insertion-ordered
`objCons`-chains ending in `objNil`.  Numbers are `ℚ` (`NaN`/`Infinity`
never arise in the parsed-message fragment the claims are about). -/

inductive JVal where
  | undef : JVal
  | null : JVal
  | jbool : Bool → JVal
  | num : ℚ → JVal
  | str : String → JVal
  | arrNil : JVal
  | arrCons : JVal → JVal → JVal
  | objNil : JVal
  | objCons : String → JVal → JVal → JVal
deriving DecidableEq, Repr

namespace JVal

/-- `isObject` (router.js:110-112): a non-null object that is not an array. -/
def isObject : JVal → Bool
  | .objNil => true
  | .objCons _ _ _ => true
  | _ => false

def isArray : JVal → Bool
  | .arrNil => true
  | .arrCons _ _ => true
  | _ => false

/-- Property read `obj[key]`: `undefined` when the key is absent or the value
is not an object. -/
def getField : JVal → String → JVal
  | .objCons k v rest, key => if k = key then v else rest.getField key
  | _, _ => (.undef)

/-- No `undefined` occurs anywhere in the value (true of every `JSON.parse`
result). -/
def noUndef : JVal → Bool
  | .undef => false
  | .arrCons h t => h.noUndef && t.noUndef
  | .objCons _ v t => v.noUndef && t.noUndef
  | _ => true

/-- `JSON.parse(JSON.stringify(v))` for the values in scope: object
properties whose value is `undefined` are dropped, `undefined` array elements
become `null`, everything else is preserved. -/
def jsonRoundTrip : JVal → JVal
  | .undef => .undef
  | .null => .null
  | .jbool b => .jbool b
  | .num q => .num q
  | .str s => .str s
  | .arrNil => .arrNil
  | .arrCons h t =>
    .arrCons (if h = .undef then .null else h.jsonRoundTrip) t.jsonRoundTrip
  | .objNil => .objNil
  | .objCons k v t =>
    if v = .undef then t.jsonRoundTrip else .objCons k v.jsonRoundTrip t.jsonRoundTrip

end JVal

/-! ## Protocol codec (`protocol.js`, src/plugin/mesh/router.js part 2)

The wire format is `MESH: <json>`.  `parseMeshMessage` strips the prefix and
feeds `JSON.parse`'s result — always `undef`-free — to `sanitizeMessage`;
`serializeMeshMessage` is `"MESH: " ++ JSON.stringify(sanitizeMessage m)`.
The codec is modelled at the JSON-value level: the built-in
`JSON.parse ∘ JSON.stringify` composition is `JVal.jsonRoundTrip`, and the
prefix framing is invertible by construction (`stringify` emits no
surrounding whitespace, so strip-and-trim recovers the body). -/

/-- `asString` (router.js:114-118): trim, non-empty. -/
def asString (v : JVal) : Option String :=
  match v with
  | .str s =>
    let t := jsTrim s
    if 0 < t.length then some t else none
  | _ => none

/-- `asInteger` (router.js:124-126): `Number.isInteger`. -/
def asInteger (v : JVal) : Option Int :=
  match v with
  | .num q => if q.den = 1 then some q.num else none
  | _ => none

/-- `asStringArray` (router.js:128-132): an array whose elements are all
strings (elements are not trimmed). -/
def asStringArray : JVal → Option (List String)
  | .arrNil => some []
  | .arrCons (.str s) t => (asStringArray t).map (s :: ·)
  | _ => none

def strArr : List String → JVal
  | [] => .arrNil
  | s :: rest => .arrCons (.str s) (strArr rest)

/-- A computed field value: `null` when the accessor failed. -/
def optStrVal : Option String → JVal
  | some s => .str s
  | none => .null

def optIntVal : Option Int → JVal
  | some n => .num (n : ℚ)
  | none => .null

def knownTypes : List String :=
  ["beacon", "intent", "offer", "accept", "settle", "dispute"]

/-- `normalizeBase` (router.js:138-145). -/
def normalizeBase (j : JVal) : Option (String × String) :=
  let v := (asString (j.getField "v")).getD "1.0"
  match asString (j.getField "type") with
  | none => none
  | some t => if t ∈ knownTypes then some (v, t) else none

/-- `hasFields` (router.js:134-136): every required key is neither
`undefined` nor `null` on the sanitized message. -/
def hasFieldsB (msg : JVal) (required : List String) : Bool :=
  required.all (fun k => !(msg.getField k == JVal.undef) && !(msg.getField k == JVal.null))

/-- Field expression `asString(obj.k)` stored on the message. -/
def strField (x : JVal) : JVal := optStrVal (asString x)

/-- Field expression `asInteger(obj.k)` stored on the message. -/
def intFieldOrNull (x : JVal) : JVal := optIntVal (asInteger x)

/-- Beacon `skills` (router.js:154). -/
def skillsField (x : JVal) : JVal :=
  match asStringArray x with
  | some items => strArr items
  | none => .null

/-- Beacon `replyChat` (router.js:158): kept when it is a number. -/
def replyChatField (x : JVal) : JVal :=
  match x with
  | .num q => .num q
  | _ => .null

/-- Intent `payload` (router.js:172): object or array, else `{}`. -/
def payloadField (x : JVal) : JVal :=
  if x.isObject || x.isArray then x else .objNil

/-- Intent `minReputation` (router.js:175): `0` when the key is `null`-ish. -/
def minRepField (x : JVal) : JVal :=
  if x = .undef ∨ x = .null then .num 0 else optIntVal (asInteger x)

/-- Offer `reputation`/`escrowAddress` (router.js:192-193): `undefined` when
the key is `null`-ish, otherwise the accessor value (which is `null` when the
accessor fails). -/
def optionalIntField (x : JVal) : JVal :=
  if x = .undef ∨ x = .null then .undef else optIntVal (asInteger x)

def optionalStrField (x : JVal) : JVal :=
  if x = .undef ∨ x = .null then .undef else optStrVal (asString x)

/-- Accept `selectedAt` (router.js:208): parsed integer or the current
unix-seconds clock. -/
def selectedAtField (wallNow : Int) (x : JVal) : JVal :=
  .num (((asInteger x).getD wallNow : Int) : ℚ)

/-- `msg.x < 0` on a sanitized value (JS: `null < 0` is false). -/
def jnumLt (v : JVal) (bound : ℚ) : Bool :=
  match v with
  | .num q => decide (q < bound)
  | _ => false

/-- `msg.x > bound`. -/
def jnumGt (v : JVal) (bound : ℚ) : Bool :=
  match v with
  | .num q => decide (bound < q)
  | _ => false

/-- `msg.x <= 0`. -/
def jnumLe (v : JVal) (bound : ℚ) : Bool :=
  match v with
  | .num q => decide (q ≤ bound)
  | _ => false

def beaconMsg (v t : String)
    (fromF skillsF minFeeF responseTimeF stakeF replyChatF : JVal) : JVal :=
  .objCons "v" (.str v) (.objCons "type" (.str t) (.objCons "from" fromF
    (.objCons "skills" skillsF (.objCons "minFee" minFeeF
    (.objCons "responseTime" responseTimeF (.objCons "stake" stakeF
    (.objCons "replyChat" replyChatF .objNil)))))))

/-- `sanitizeBeacon` (router.js:147-161). -/
def sanitizeBeacon (j : JVal) : Option JVal :=
  if j.isObject then
    match normalizeBase j with
    | none => none
    | some (v, t) =>
      let msg := beaconMsg v t
        (strField (j.getField "from"))
        (skillsField (j.getField "skills"))
        (strField (j.getField "minFee"))
        (strField (j.getField "responseTime"))
        (strField (j.getField "stake"))
        (replyChatField (j.getField "replyChat"))
      if hasFieldsB msg ["from", "skills"] then some msg else none
  else none

def intentMsg (v t : String)
    (idF fromF skillF payloadF budgetF deadlineF minRepF : JVal) : JVal :=
  .objCons "v" (.str v) (.objCons "type" (.str t) (.objCons "id" idF
    (.objCons "from" fromF (.objCons "skill" skillF
    (.objCons "payload" payloadF (.objCons "budget" budgetF
    (.objCons "deadline" deadlineF
    (.objCons "minReputation" minRepF .objNil))))))))

/-- `sanitizeIntent` (router.js:163-180). -/
def sanitizeIntent (j : JVal) : Option JVal :=
  if j.isObject then
    match normalizeBase j with
    | none => none
    | some (v, t) =>
      let minRepF := minRepField (j.getField "minReputation")
      let deadlineF := intFieldOrNull (j.getField "deadline")
      let msg := intentMsg v t
        (strField (j.getField "id"))
        (strField (j.getField "from"))
        (strField (j.getField "skill"))
        (payloadField (j.getField "payload"))
        (strField (j.getField "budget"))
        deadlineF
        minRepF
      if minRepF = .null || jnumLt minRepF 0 then none
      else if deadlineF = .null || jnumLe deadlineF 0 then none
      else if hasFieldsB msg ["id", "from", "skill", "budget", "deadline"] then
        some msg
      else none
  else none

def offerMsg (v t : String)
    (intentIdF fromF feeF etaF reputationF escrowF : JVal) : JVal :=
  .objCons "v" (.str v) (.objCons "type" (.str t)
    (.objCons "intentId" intentIdF (.objCons "from" fromF
    (.objCons "fee" feeF (.objCons "eta" etaF
    (.objCons "reputation" reputationF
    (.objCons "escrowAddress" escrowF .objNil)))))))

/-- `sanitizeOffer` (router.js:182-196). -/
def sanitizeOffer (j : JVal) : Option JVal :=
  if j.isObject then
    match normalizeBase j with
    | none => none
    | some (v, t) =>
      let msg := offerMsg v t
        (strField (j.getField "intentId"))
        (strField (j.getField "from"))
        (strField (j.getField "fee"))
        (strField (j.getField "eta"))
        (optionalIntField (j.getField "reputation"))
        (optionalStrField (j.getField "escrowAddress"))
      if hasFieldsB msg ["intentId", "from", "fee", "eta"] then some msg else none
  else none

def acceptMsg (v t : String) (intentIdF fromF toF feeF selectedAtF : JVal) : JVal :=
  .objCons "v" (.str v) (.objCons "type" (.str t)
    (.objCons "intentId" intentIdF (.objCons "from" fromF
    (.objCons "to" toF (.objCons "fee" feeF
    (.objCons "selectedAt" selectedAtF .objNil))))))

/-- `sanitizeAccept` (router.js:198-211). -/
def sanitizeAccept (wallNow : Int) (j : JVal) : Option JVal :=
  if j.isObject then
    match normalizeBase j with
    | none => none
    | some (v, t) =>
      let msg := acceptMsg v t
        (strField (j.getField "intentId"))
        (strField (j.getField "from"))
        (strField (j.getField "to"))
        (strField (j.getField "fee"))
        (selectedAtField wallNow (j.getField "selectedAt"))
      if hasFieldsB msg ["intentId", "from", "to", "fee"] then some msg else none
  else none

def settleMsg (v t : String) (intentIdF fromF txHashF outcomeF ratingF : JVal) :
    JVal :=
  .objCons "v" (.str v) (.objCons "type" (.str t)
    (.objCons "intentId" intentIdF (.objCons "from" fromF
    (.objCons "txHash" txHashF (.objCons "outcome" outcomeF
    (.objCons "rating" ratingF .objNil))))))

/-- `sanitizeSettle` (router.js:213-227). -/
def sanitizeSettle (j : JVal) : Option JVal :=
  if j.isObject then
    match normalizeBase j with
    | none => none
    | some (v, t) =>
      let ratingF := intFieldOrNull (j.getField "rating")
      let msg := settleMsg v t
        (strField (j.getField "intentId"))
        (strField (j.getField "from"))
        (strField (j.getField "txHash"))
        (strField (j.getField "outcome"))
        ratingF
      if ratingF = .null || jnumLt ratingF 1 || jnumGt ratingF 10 then none
      else if hasFieldsB msg ["intentId", "from", "txHash", "outcome", "rating"] then
        some msg
      else none
  else none

def disputeMsg (v t : String) (intentIdF fromF againstF reasonF evidenceTxF : JVal) :
    JVal :=
  .objCons "v" (.str v) (.objCons "type" (.str t)
    (.objCons "intentId" intentIdF (.objCons "from" fromF
    (.objCons "against" againstF (.objCons "reason" reasonF
    (.objCons "evidenceTx" evidenceTxF .objNil))))))

/-- `sanitizeDispute` (router.js:229-242). -/
def sanitizeDispute (j : JVal) : Option JVal :=
  if j.isObject then
    match normalizeBase j with
    | none => none
    | some (v, t) =>
      let msg := disputeMsg v t
        (strField (j.getField "intentId"))
        (strField (j.getField "from"))
        (strField (j.getField "against"))
        (strField (j.getField "reason"))
        (strField (j.getField "evidenceTx"))
      if hasFieldsB msg ["intentId", "from", "against"] then some msg else none
  else none

/-- `sanitizeMessage` (router.js:244-261): dispatch on the raw `obj.type`. -/
def sanitizeMessage (wallNow : Int) (j : JVal) : Option JVal :=
  match j.getField "type" with
  | .str "beacon" => sanitizeBeacon j
  | .str "intent" => sanitizeIntent j
  | .str "offer" => sanitizeOffer j
  | .str "accept" => sanitizeAccept wallNow j
  | .str "settle" => sanitizeSettle j
  | .str "dispute" => sanitizeDispute j
  | _ => none

/-- `parseMeshMessage` (router.js:263-274) at the value level: the input is
the `JSON.parse` of the text after the `MESH:` prefix (parse returns `null`
for a missing prefix or invalid JSON before ever reaching this stage).
`wallNow` is the clock read used for a missing `accept.selectedAt`. -/
def parseMeshMessage (wallNow : Int) (j : JVal) : Option JVal :=
  sanitizeMessage wallNow j

/-- Replace a `null` value stored under `key` by `undefined`. -/
def setFieldUndefIfNull : JVal → String → JVal
  | .objCons k v t, key =>
    if k = key then .objCons k (if v = .null then .undef else v) t
    else .objCons k v (setFieldUndefIfNull t key)
  | x, _ => x

/-- The normalisation a serialize/parse round trip applies to an offer
message: its optional `reputation`/`escrowAddress` fields collapse from
`null` (present but invalid) to `undefined` (absent).  Identity on the other
five kinds. -/
def undefifyOfferNulls (m : JVal) : JVal :=
  if m.getField "type" = .str "offer" then
    setFieldUndefIfNull (setFieldUndefIfNull m "reputation") "escrowAddress"
  else m

/-- An object entry that `JSON.stringify` keeps only for a defined value. -/
def consIfDef (k : String) (v rest : JVal) : JVal :=
  if v = .undef then rest else .objCons k v rest

/-- The shape of a serialized-then-reparsed offer message: the two optional
entries survive exactly when they were defined. -/
def offerMsgRT (v t : String) (intentIdF fromF feeF etaF reputationF escrowF : JVal) :
    JVal :=
  .objCons "v" (.str v) (.objCons "type" (.str t)
    (.objCons "intentId" intentIdF (.objCons "from" fromF
    (.objCons "fee" feeF (.objCons "eta" etaF
    (consIfDef "reputation" reputationF
    (consIfDef "escrowAddress" escrowF .objNil)))))))

/-! ## Registry store, in-memory backend (`registry.js`, src/unnamed/part_003)

`sdk.__meshStore` (part_003:187-198) holds JavaScript `Map`s; these are
modelled as insertion-ordered association lists.  `Map.set` replaces the value
in place when the key exists and appends otherwise. -/

/-- JavaScript `Map.prototype.set`: replace the (unique) existing entry in
place, else append. -/
def alistSet {α : Type} (l : List (String × α)) (key : String) (value : α) :
    List (String × α) :=
  match l with
  | [] => [(key, value)]
  | (k, v) :: rest =>
    if k = key then (key, value) :: rest else (k, v) :: alistSet rest key value

/-- JavaScript `Map.prototype.get` (`undefined` ↦ `none`). -/
def alistGet {α : Type} (l : List (String × α)) (key : String) : Option α :=
  match l with
  | [] => none
  | (k, v) :: rest => if k = key then some v else alistGet rest key

/-- Peer record stored by the memory path of `upsertPeer` (part_003:582-594). -/
structure Peer where
  address : String
  skills : List String
  minFee : ℚ
  responseTime : String
  reputation : ℚ
  lastSeen : Int
  stake : ℚ
  stakeAgeSeconds : ℚ
  replyChat : Option String
  createdAt : Int
  updatedAt : Int
deriving DecidableEq, Repr

/-- Intent record stored by the memory path of `saveIntent`
(part_003:705-722). -/
structure Intent where
  id : String
  fromAddress : Option String
  skill : Option String
  payload : JVal
  budget : ℚ
  deadline : Int
  minReputation : Int
  status : String
  createdAt : Int
  acceptedOfferId : Option String
  selectedExecutor : Option String
  updatedAt : Int
deriving DecidableEq, Repr

/-- Offer record stored by `recordOffer` (part_003:846-859). -/
structure StoredOffer where
  id : String
  intentId : String
  fromAddress : String
  fee : ℚ
  feeRaw : String
  eta : Option String
  reputation : Option Int
  stakeAgeSeconds : ℚ
  escrowAddress : Option String
  createdAt : Int
deriving DecidableEq, Repr

/-- Deal record stored by the memory path of `settleDeal`
(part_003:937-949). -/
structure Deal where
  intentId : String
  executorAddress : Option String
  fee : Option ℚ
  txHash : Option String
  outcome : Option String
  rating : Option ℚ
  settledAt : Option Int
  updatedAt : Int
deriving DecidableEq, Repr

/-- The full in-memory store `sdk.__meshStore` (part_003:187-198). -/
structure MeshStore where
  peers : List (String × Peer)
  intents : List (String × Intent)
  offers : List (String × StoredOffer)
  deals : List (String × Deal)
  processedMessages : List String
deriving DecidableEq, Repr

/-- Memory path of `getIntent` (part_003:735). -/
def getIntent (st : MeshStore) (id : String) : Option Intent :=
  alistGet st.intents id

/-- The `extra` object passed to `updateIntentStatus`; a `none` field models
an absent key (the object spread `...extra` then leaves the current value). -/
structure IntentExtra where
  acceptedOfferId : Option String
  selectedExecutor : Option String
deriving DecidableEq, Repr

/-- `{ ...current, status, ...extra, updatedAt: now() }` (part_003:785). -/
def applyStatusUpdate (current : Intent) (status : String)
    (extra : IntentExtra) (wallNow : Int) : Intent :=
  { current with
      status := status
      acceptedOfferId := extra.acceptedOfferId.elim current.acceptedOfferId some
      selectedExecutor := extra.selectedExecutor.elim current.selectedExecutor some
      updatedAt := wallNow }

/-- Memory path of `updateIntentStatus` (part_003:782-788). -/
def updateIntentStatus (st : MeshStore) (id status : String)
    (extra : IntentExtra) (wallNow : Int) : Option Intent × MeshStore :=
  match getIntent st id with
  | none => (none, st)
  | some current =>
    let updated := applyStatusUpdate current status extra wallNow
    (some updated, { st with intents := alistSet st.intents id updated })

/-- Result of `acceptIntentOffer`. -/
inductive AcceptResult where
  | ok (intent : Option Intent)
  | notFound
  | notPending (intent : Intent)
deriving DecidableEq, Repr

def AcceptResult.isOk : AcceptResult → Bool
  | .ok _ => true
  | _ => false

/-- Memory path of `acceptIntentOffer` (part_003:836-844), run to completion
with no interleaving. -/
def acceptIntentOffer (st : MeshStore) (intentId offerId executorAddress : String)
    (wallNow : Int) : AcceptResult × MeshStore :=
  match getIntent st intentId with
  | none => (.notFound, st)
  | some current =>
    if current.status ≠ "pending" then (.notPending current, st)
    else
      let (updated, st1) :=
        updateIntentStatus st intentId "accepted"
          ⟨some offerId, some executorAddress⟩ wallNow
      (.ok updated, st1)

/-- The Postgres (part_003:814-833, `SELECT … FOR UPDATE` inside one
transaction) and Supabase (part_003:791-811, single conditional `PATCH … WHERE
id=eq.X AND status=eq.pending`) paths of `acceptIntentOffer`: the
check-and-update is one atomic step. -/
def acceptIntentOfferAtomic (st : MeshStore)
    (intentId offerId executorAddress : String) (wallNow : Int) :
    AcceptResult × MeshStore :=
  acceptIntentOffer st intentId offerId executorAddress wallNow

/-- Memory path of `expireIntents` (part_003:1053-1062): iterate the live map,
replacing each pending intent whose deadline has passed.  `ts` is the sweep
cutoff argument, `wallNow` the `now()` used for `updatedAt`. -/
def expireIntentsLoop (ts wallNow : Int) :
    List (String × Intent) → List Intent × List (String × Intent)
  | [] => ([], [])
  | (k, intent) :: rest =>
    let (expired, rest1) := expireIntentsLoop ts wallNow rest
    if intent.status = "pending" ∧ intent.deadline < ts then
      let next := { intent with status := "expired", updatedAt := wallNow }
      (next :: expired, (k, next) :: rest1)
    else (expired, (k, intent) :: rest1)

def expireIntents (st : MeshStore) (ts wallNow : Int) :
    List Intent × MeshStore :=
  let (expired, intents1) := expireIntentsLoop ts wallNow st.intents
  (expired, { st with intents := intents1 })

/-- Arguments of `settleDeal` (part_003:937); a `none` field models an absent
or `undefined`/`null` property. -/
structure DealPatch where
  intentId : String
  executorAddress : Option String
  fee : Option ℚ
  txHash : Option String
  outcome : Option String
  rating : Option ℚ
  settledAt : Option Int
deriving DecidableEq, Repr

/-- Memory path of `settleDeal` (part_003:937-949, 995-996). -/
def settleDeal (st : MeshStore) (deal : DealPatch) (wallNow : Int) : MeshStore :=
  let existing := alistGet st.deals deal.intentId
  let record : Deal :=
    { intentId := deal.intentId
      executorAddress := deal.executorAddress.elim (existing.bind (·.executorAddress)) some
      fee := deal.fee.elim (existing.bind (·.fee)) some
      txHash := deal.txHash.elim (existing.bind (·.txHash)) some
      outcome := deal.outcome.elim (existing.bind (·.outcome)) some
      rating := deal.rating.elim (existing.bind (·.rating)) some
      settledAt :=
        match deal.settledAt with
        | some t => some t
        | none =>
          match deal.outcome with
          | some _ => some wallNow
          | none => existing.bind (·.settledAt)
      updatedAt := wallNow }
  { st with deals := alistSet st.deals deal.intentId record }

/-- The store effect of the inbound `settle` handler `handleSettle`
(index.js:410-432) on the deals and intents tables: `settleDeal` followed by
an unconditional `updateIntentStatus(intentId, 'settled')`.  (The handler then
refreshes the sender's peer row, which does not touch intents.) -/
def handleSettleStoreEffect (st : MeshStore) (intentId : String)
    (executorAddress txHash outcome : Option String) (rating : Option ℚ)
    (wallNow : Int) : MeshStore :=
  let st1 := settleDeal st
    ⟨intentId, executorAddress, none, txHash, outcome, rating, some wallNow⟩ wallNow
  (updateIntentStatus st1 intentId "settled" ⟨none, none⟩ wallNow).2

/-! ### Interleaving model for concurrent `acceptIntentOffer` calls

In the single-threaded JS runtime an `async` function runs synchronously
between `await` points.  The memory path of `acceptIntentOffer` suspends once,
after `await getIntent(...)` (part_003:836) and before the status check and
`updateIntentStatus` write (part_003:838-842); `updateIntentStatus`'s memory
body runs without internal suspension.  Each call is therefore two atomic
segments: (1) read the intent, (2) check the snapshot and conditionally
write. -/

structure AcceptCall where
  intentId : String
  offerId : String
  executorAddress : String
deriving DecidableEq, Repr

inductive AcceptPhase where
  | start
  | readDone (snapshot : Option Intent)
  | finished (result : AcceptResult)
deriving DecidableEq, Repr

/-- One atomic segment of an in-flight memory-path `acceptIntentOffer`. -/
def acceptStep (c : AcceptCall) (wallNow : Int) :
    AcceptPhase × MeshStore → AcceptPhase × MeshStore
  | (.start, st) => (.readDone (getIntent st c.intentId), st)
  | (.readDone snapshot, st) =>
    match snapshot with
    | none => (.finished .notFound, st)
    | some current =>
      if current.status ≠ "pending" then (.finished (.notPending current), st)
      else
        let (updated, st1) :=
          updateIntentStatus st c.intentId "accepted"
            ⟨some c.offerId, some c.executorAddress⟩ wallNow
        (.finished (.ok updated), st1)
  | (.finished r, st) => (.finished r, st)

/-- Run two concurrent calls under a schedule: `true` steps the first call,
`false` the second.  A finished call's step is a no-op. -/
def runTwoAccepts (c1 c2 : AcceptCall) (wallNow : Int) :
    List Bool → AcceptPhase × AcceptPhase × MeshStore →
    AcceptPhase × AcceptPhase × MeshStore
  | [], s => s
  | b :: rest, (p1, p2, st) =>
    if b then
      let (p1', st') := acceptStep c1 wallNow (p1, st)
      runTwoAccepts c1 c2 wallNow rest (p1', p2, st')
    else
      let (p2', st') := acceptStep c2 wallNow (p2, st)
      runTwoAccepts c1 c2 wallNow rest (p1, p2', st')

/-! ## Ranker (`router.js` lines 1-104)

`scoreOffers` consumes the offers read back from the store
(`listOffersForIntent`), so its input type is `StoredOffer`.  The async
`getReputation` callback is modelled as `live : String → Option ℚ`, where
`none` stands for a non-finite result (the code then falls back to the
snapshot `offer.reputation ?? 100`). -/

/-- `Number(score.toFixed(4))`: round to four decimal places, ties away from
zero. -/
def round4 (q : ℚ) : ℚ :=
  (if q ≥ 0 then ⌊q * 10000 + 1 / 2⌋ else -⌊-(q * 10000) + 1 / 2⌋ : ℚ) / 10000

/-- `Number.MAX_SAFE_INTEGER`, the sentinel speed value for `eta = 0`
(router.js:56). -/
def maxSafeInteger : ℚ := 9007199254740991

def digitsToNat (l : List Char) : ℕ :=
  l.foldl (fun acc c => acc * 10 + (c.toNat - 48)) 0

/-- The lexing half of `parseEtaSeconds` (router.js:8-12): trim + lowercase,
then match `^(\d+(?:\.\d+)?)\s*(unit)?$`.  Returns the integer digits' value,
the fraction digits' value and count, and the unit text (`""` when absent);
`none` when the regex does not match at this stage. -/
def parseEtaParts (s : String) : Option (ℕ × ℕ × ℕ × String) :=
  let cs := trimChars ((jsToLower s).toList)
  let intPart := cs.takeWhile Char.isDigit
  let rest := cs.dropWhile Char.isDigit
  if intPart.isEmpty then none
  else
    let afterNum : Option (ℕ × ℕ × List Char) :=
      match rest with
      | '.' :: more =>
        let fracPart := more.takeWhile Char.isDigit
        if fracPart.isEmpty then none
        else some (digitsToNat fracPart, fracPart.length, more.dropWhile Char.isDigit)
      | _ => some (0, 0, rest)
    match afterNum with
    | none => none
    | some (fracVal, fracLen, rest2) =>
      some (digitsToNat intPart, fracVal, fracLen, String.mk (rest2.dropWhile isJsWs))

/-- `parseEtaSeconds` (router.js:6-18): convert the matched number to
seconds; any failure (non-string, regex mismatch, unknown unit) yields `0`.
`none` models a non-string `eta`. -/
def parseEtaSeconds (eta : Option String) : ℚ :=
  match eta with
  | none => 0
  | some s =>
    match parseEtaParts s with
    | none => 0
    | some (intVal, fracVal, fracLen, unit) =>
      let value : ℚ := (intVal : ℚ) + (fracVal : ℚ) / ((10 ^ fracLen : ℕ) : ℚ)
      if unit = "" then value
      else if unit = "ms" then value / 1000
      else if unit = "m" || unit = "min" || unit = "mins" then value * 60
      else if unit = "h" || unit = "hr" || unit = "hrs" then value * 3600
      else if unit = "s" || unit = "sec" || unit = "secs" then value
      else 0

/-- `normalize` (router.js:20-28): min-max normalisation, all `1` when the
range is degenerate (and `[]` for `[]`, where `Math.min()` is infinite). -/
def normalize (values : List ℚ) : List ℚ :=
  match values with
  | [] => []
  | v :: vs =>
    let mn := vs.foldl min v
    let mx := vs.foldl max v
    if mx = mn then (v :: vs).map (fun _ => 1)
    else (v :: vs).map (fun n => (n - mn) / (mx - mn))

/-- Scoring weights (router.js:31-35) with their defaults. -/
structure Weights where
  reputation : ℚ
  fee : ℚ
  speed : ℚ
deriving DecidableEq, Repr

def defaultWeights : Weights := ⟨1 / 2, 3 / 10, 1 / 5⟩

/-- `_liveReputation` (router.js:42-45): the live lookup, falling back to the
snapshot `offer.reputation ?? 100` when the lookup is non-finite. -/
def liveRepOf (live : String → Option ℚ) (o : StoredOffer) : ℚ :=
  (live o.fromAddress).getD ((o.reputation.map (fun n => (n : ℚ))).getD 100)

/-- The speed value entering normalisation (router.js:54-57). -/
def speedValue (etaSeconds : ℚ) : ℚ :=
  if etaSeconds = 0 then maxSafeInteger else 1 / etaSeconds

/-- Output row of `scoreOffers` (router.js:59-76); the fields `pickBestOffer`
and the claims consult. -/
structure ScoredOffer where
  offer : StoredOffer
  liveReputation : ℚ
  stakeAgeSeconds : ℚ
  score : ℚ
deriving DecidableEq, Repr

/-- The final `enriched.map((offer, i) => …)` (router.js:59-76), aligning the
offers with the three normalised vectors. -/
def combineScores (w : Weights) :
    List StoredOffer → List ℚ → List ℚ → List ℚ → List ℚ → List ScoredOffer
  | o :: os, lr :: lrs, r :: rs, f :: fs, s :: ss =>
    { offer := o
      liveReputation := lr
      stakeAgeSeconds := o.stakeAgeSeconds
      score := round4 (w.reputation * r + w.fee * (1 - f) + w.speed * s) } ::
      combineScores w os lrs rs fs ss
  | _, _, _, _, _ => []

/-- `scoreOffers` (router.js:30-77). -/
def scoreOffers (w : Weights) (live : String → Option ℚ)
    (offers : List StoredOffer) : List ScoredOffer :=
  let liveReps := offers.map (liveRepOf live)
  let repNorm := normalize liveReps
  let feeNorm := normalize (offers.map (·.fee))
  let speedNorm := normalize (offers.map (fun o => speedValue (parseEtaSeconds o.eta)))
  combineScores w offers liveReps repNorm feeNorm speedNorm

/-- A stable sort modelling `Array.prototype.sort` (stable since ES2019) for
a consistent comparator: `le a b` means `cmp(a,b) ≤ 0`. -/
def jsSortInsert {α : Type} (le : α → α → Bool) (a : α) : List α → List α
  | [] => [a]
  | b :: l => if le a b then a :: b :: l else b :: jsSortInsert le a l

def jsSort {α : Type} (le : α → α → Bool) : List α → List α
  | [] => []
  | a :: l => jsSortInsert le a (jsSort le l)

/-- The primary comparator (router.js:83-86): score descending, then
`liveReputation` descending. -/
def leScore (a b : ScoredOffer) : Bool :=
  if b.score = a.score then b.liveReputation ≤ a.liveReputation
  else b.score ≤ a.score

/-- The tie-break comparator (router.js:92-97): `stakeAgeSeconds` descending,
then `createdAt` ascending. -/
def leTie (a b : ScoredOffer) : Bool :=
  if b.stakeAgeSeconds = a.stakeAgeSeconds then
    a.offer.createdAt ≤ b.offer.createdAt
  else b.stakeAgeSeconds ≤ a.stakeAgeSeconds

/-- `pickBestOffer` (router.js:79-99). -/
def pickBestOffer (tieWindow : ℚ) (scoredOffers : List ScoredOffer) :
    Option ScoredOffer :=
  match jsSort leScore scoredOffers with
  | [] => none
  | best :: sortedRest =>
    let competitors :=
      (best :: sortedRest).filter (fun o => |best.score - o.score| ≤ tieWindow)
    if competitors.length = 1 then some best
    else (jsSort leTie competitors).head?

/-! ### Reference (spec-side) form of the ranking algorithm

These definitions transcribe §4.C of the specification word by word, for the
refinement claims: min-max normalisation via `minimum?`/`maximum?`, the score
`S = w_r·repNorm + w_f·(1 − feeNorm) + w_s·speedNorm` kept exact, the
selection as (a) sort by `S` descending then live reputation descending,
(b) re-sort the tie window by stake age descending then `createdAt`
ascending, (c) take the first. -/

def specNormalize (values : List ℚ) : List ℚ :=
  match values.min?, values.max? with
  | some mn, some mx =>
    if mx = mn then values.map (fun _ => 1)
    else values.map (fun n => (n - mn) / (mx - mn))
  | _, _ => []

/-- Spec-side scoring: identical pipeline, exact (unrounded) score.  The
`i`-th output row pairs the `i`-th offer with the `i`-th entries of the three
normalised vectors. -/
def specScoreOffers (w : Weights) (live : String → Option ℚ)
    (offers : List StoredOffer) : List ScoredOffer :=
  let liveReps := offers.map (liveRepOf live)
  let repNorm := specNormalize liveReps
  let feeNorm := specNormalize (offers.map (·.fee))
  let speedNorm := specNormalize (offers.map (fun o => speedValue (parseEtaSeconds o.eta)))
  offers.mapIdx (fun i o =>
    { offer := o
      liveReputation := liveReps.getD i 0
      stakeAgeSeconds := o.stakeAgeSeconds
      score :=
        w.reputation * repNorm.getD i 0 + w.fee * (1 - feeNorm.getD i 0) +
          w.speed * speedNorm.getD i 0 })

/-- Spec-side scoring amended with the code's 4-decimal rounding of the
score. -/
def specScoreOffersRounded (w : Weights) (live : String → Option ℚ)
    (offers : List StoredOffer) : List ScoredOffer :=
  (specScoreOffers w live offers).map (fun s => { s with score := round4 s.score })

/-- Spec-side primary sort order: `S` descending, then live reputation
descending. -/
def specLeScore (a b : ScoredOffer) : Bool :=
  decide (a.score > b.score ∨ (a.score = b.score ∧ a.liveReputation ≥ b.liveReputation))

/-- Spec-side tie-break order: stake age descending, then `createdAt`
ascending. -/
def specLeTie (a b : ScoredOffer) : Bool :=
  decide (a.stakeAgeSeconds > b.stakeAgeSeconds ∨
    (a.stakeAgeSeconds = b.stakeAgeSeconds ∧ a.offer.createdAt ≤ b.offer.createdAt))

/-- Spec-side best-offer selection (§4.C step 4). -/
def specSelectBest (tieWindow : ℚ) (scored : List ScoredOffer) :
    Option ScoredOffer :=
  match jsSort specLeScore scored with
  | [] => none
  | best :: sortedRest =>
    (jsSort specLeTie
      ((best :: sortedRest).filter (fun o => |best.score - o.score| ≤ tieWindow))).head?

/-! ## Reputation client (`reputation.js`, src/unnamed/part_004) -/

/-- `reputationDeltaForRating` (part_004:22-28).  The rating arrives as a
JavaScript number (`Number(rating)`), so it is modelled as `ℚ`. -/
def reputationDeltaForRating (rating : ℚ) : Int :=
  if rating ≥ 9 then 15
  else if rating ≥ 7 then 8
  else if rating ≥ 5 then 2
  else if rating ≥ 3 then -10
  else -25

/-- Plugin configuration fields consulted by the reputation client
(part_004:45-60).  `none` models an absent key; `mode := some ""` models an
empty string (falsy in JS, so it falls through to the environment). -/
structure RepConfig where
  mode : Option String
  strictChain : Option Bool
  allowLocalReputationFallback : Option Bool
deriving DecidableEq, Repr

/-- `modeOf` (part_004:45-47): `String(config.mode || process.env.MESH_MODE
|| '').toLowerCase()`.  `envMode` models `process.env.MESH_MODE` (empty string
when unset). -/
def modeOf (config : RepConfig) (envMode : String) : String :=
  (match config.mode with
   | some s => if s = "" then envMode else s
   | none => envMode).toLower

/-- `isStrictChainMode` (part_004:49-53). -/
def isStrictChainMode (config : RepConfig) (envMode : String) : Bool :=
  match config.strictChain with
  | some b => b
  | none =>
    let m := modeOf config envMode
    m = "production" || m = "mainnet"

/-- `allowLocalFallback` (part_004:55-60). -/
def allowLocalFallback (config : RepConfig) (envMode : String) : Bool :=
  match config.allowLocalReputationFallback with
  | some b => b
  | none => !isStrictChainMode config envMode

/-- The in-process local-fallback state `sdk.__meshReputation`
(part_004:1-11): maps of scores, stakes, stake-since timestamps and the set of
already-processed settlement tx hashes. -/
structure RepState where
  scores : List (String × Int)
  stakes : List (String × ℚ)
  stakeSince : List (String × Int)
  txSeen : List String
deriving DecidableEq, Repr

namespace RepState

def lookupScore (st : RepState) (address : String) : Option Int :=
  alistGet st.scores address

def setScore (st : RepState) (address : String) (score : Int) : RepState :=
  { st with scores := alistSet st.scores address score }

end RepState

/-- Result object of a successful `recordOutcome` (part_004:210-216). -/
structure OutcomeResult where
  executorAddress : String
  txHash : String
  rating : ℚ
  delta : Int
  reputation : Int
deriving DecidableEq, Repr

/-- `MeshReputationClient.recordOutcome` (part_004:185-217), in the
configuration the claim is about: no host adapter is injected
(`sdk.ton.meshReputation` absent), so the method falls through the adapter
branch.  `strictChain` and `localFallbackAllowed` are the values computed in
the constructor (part_004:66-67).  Errors are thrown before any mutation, so
the error case returns the state unchanged. -/
def recordOutcome (strictChain localFallbackAllowed : Bool) (st : RepState)
    (executorAddress txHash : String) (rating : ℚ) :
    RepState × Except String OutcomeResult :=
  if strictChain then
    (st, .error "recordOutcome on-chain path not implemented in strictChain mode")
  else if !localFallbackAllowed then
    (st, .error "Local reputation fallback is disabled in strictChain mode (recordOutcome)")
  else if txHash ∈ st.txSeen then
    (st, .error "Replay detected: txHash already processed")
  else
    let current := (st.lookupScore executorAddress).getD 100
    let delta := reputationDeltaForRating rating
    let next := max 0 (current + delta)
    let st1 := { st with txSeen := st.txSeen ++ [txHash] }
    let st2 := st1.setScore executorAddress next
    (st2, .ok ⟨executorAddress, txHash, rating, delta, next⟩)

/-- Result of `verifyPayment` (part_004:261-283): the `ok` flag and the
`reason`/`local` detail. -/
inductive VerifyResult where
  | okLocal
  | okHost
  | fail (reason : String)
deriving DecidableEq, Repr

def VerifyResult.ok : VerifyResult → Bool
  | .okLocal => true
  | .okHost => true
  | .fail _ => false

/-- `MeshReputationClient.verifyPayment` (part_004:261-283) when no host
payment verifier is injected (`sdk.ton.verifyPayment` absent), so the `try`
block is skipped.  `txHash = none` models a missing/non-string hash; the empty
string is falsy in JS (`!txHash`). -/
def verifyPayment (localFallbackAllowed : Bool) (txHash : Option String) :
    VerifyResult :=
  match txHash with
  | none => .fail "missing_tx_hash"
  | some h =>
    if h = "" then .fail "missing_tx_hash"
    else if !localFallbackAllowed then .fail "local_payment_fallback_disabled"
    else .okLocal

/-! ## Helper definitions for the ranking proofs -/

/-- The minimum `Math.min(...values)` computed by `normalize` (0 for `[]`,
unused there). -/
def headMin (l : List ℚ) : ℚ :=
  match l with
  | [] => 0
  | v :: vs => vs.foldl min v

/-- The maximum `Math.max(...values)` computed by `normalize`. -/
def headMax (l : List ℚ) : ℚ :=
  match l with
  | [] => 0
  | v :: vs => vs.foldl max v

/-- The pointwise function applied by `normalize` on the list `l`. -/
def normFun (l : List ℚ) (x : ℚ) : ℚ :=
  if headMax l = headMin l then 1 else (x - headMin l) / (headMax l - headMin l)

/-! ## Concrete fixtures used by witnesses and counterexamples -/

def pendingIntentI1 : Intent :=
  { id := "i1", fromAddress := some "EQX", skill := some "analytics",
    payload := .objNil, budget := 1, deadline := 60, minReputation := 0,
    status := "pending", createdAt := 10, acceptedOfferId := none,
    selectedExecutor := none, updatedAt := 10 }

def storeWithI1 : MeshStore :=
  { peers := [], intents := [("i1", pendingIntentI1)], offers := [],
    deals := [], processedMessages := [] }

def AcceptPhase.finishedOk : AcceptPhase → Bool
  | .finished (.ok _) => true
  | _ => false

/-- The transition DAG the specification allows. -/
def intentDagEdges : List (String × String) :=
  [("pending", "accepted"), ("pending", "expired"), ("accepted", "settled")]

/-- Offer fixture for the ranking claims. -/
def mkRankOffer (id addr : String) (fee : ℚ) (rep : Int) (eta : String)
    (stakeAge : ℚ) (created : Int) : StoredOffer :=
  { id := id, intentId := "i1", fromAddress := addr, fee := fee,
    feeRaw := "x", eta := some eta, reputation := some rep,
    stakeAgeSeconds := stakeAge, escrowAddress := none, createdAt := created }

def rankOffA : StoredOffer := mkRankOffer "a" "EQA" 1 100 "1s" 0 1

def rankOffB : StoredOffer := mkRankOffer "b" "EQB" 2 0 "2s" 0 2

/-- Strictly dominated by `rankOffA`: lower reputation (99 < 100), higher fee
(1.01 > 1), slower eta (1.02s > 1s) — but a huge stake age. -/
def rankOffC : StoredOffer := mkRankOffer "c" "EQC" (101 / 100) 99 "1.02s" 1000000 0

/-- A reputation lookup that always fails over to the snapshot. -/
def rankNoLive : String → Option ℚ := fun _ => none

/-- `JSON.parse` of `{"type":"offer","intentId":"i1","from":"EQY","fee":"0.5",
"eta":"5s","escrowAddress":5}` — an offer whose optional `escrowAddress` is
present but not a string. -/
def c3OfferInput : JVal :=
  .objCons "type" (.str "offer") (.objCons "intentId" (.str "i1")
    (.objCons "from" (.str "EQY") (.objCons "fee" (.str "0.5")
    (.objCons "eta" (.str "5s") (.objCons "escrowAddress" (.num 5) .objNil)))))

/-- The message the codec parses out of `c3OfferInput`: the invalid optional
field is kept as `null`. -/
def c3OfferParsed : JVal :=
  offerMsg "1.0" "offer" (.str "i1") (.str "EQY") (.str "0.5") (.str "5s")
    .undef .null

/-- The same message after one serialize/parse round trip: the `null`
collapsed to `undefined`. -/
def c3OfferReparsed : JVal :=
  offerMsg "1.0" "offer" (.str "i1") (.str "EQY") (.str "0.5") (.str "5s")
    .undef (.undef)

/-- `JSON.parse` of a settle message body (used as the C3 witness input). -/
def c3SettleInput : JVal :=
  .objCons "type" (.str "settle") (.objCons "intentId" (.str "i1")
    (.objCons "from" (.str "EQY") (.objCons "txHash" (.str "0xabc")
    (.objCons "outcome" (.str "success") (.objCons "rating" (.num 9) .objNil)))))

/-- An intent message body carrying every field except `minReputation`. -/
def c9IntentNoMinRep : JVal :=
  .objCons "type" (.str "intent") (.objCons "id" (.str "i1")
    (.objCons "from" (.str "EQX") (.objCons "skill" (.str "swap")
    (.objCons "budget" (.str "1.0") (.objCons "deadline" (.num 60) .objNil)))))

/-- An intent message body missing the required `id` field. -/
def c9IntentNoId : JVal :=
  .objCons "type" (.str "intent") (.objCons "from" (.str "EQX")
    (.objCons "skill" (.str "swap") (.objCons "budget" (.str "1.0")
    (.objCons "deadline" (.num 60)
    (.objCons "minReputation" (.num 0) .objNil)))))

/-! ## Association-list lemmas -/

theorem alistGet_alistSet_self {α : Type} (l : List (String × α)) (key : String)
    (value : α) : alistGet (alistSet l key value) key = some value := by
  induction l with
  | nil => simp [alistSet, alistGet]
  | cons p rest ih =>
    obtain ⟨k, v⟩ := p
    by_cases h : k = key <;> simp [alistSet, alistGet, h, ih]

theorem alistGet_alistSet_ne {α : Type} (l : List (String × α)) (key other : String)
    (value : α) (h : other ≠ key) :
    alistGet (alistSet l key value) other = alistGet l other := by
  induction l with
  | nil => simp [alistSet, alistGet, Ne.symm h]
  | cons p rest ih =>
    obtain ⟨k, v⟩ := p
    by_cases hk : k = key
    · subst hk
      simp [alistSet, alistGet, Ne.symm h, ih]
    · simp only [alistSet, if_neg hk]
      by_cases ho : k = other <;> simp [alistGet, ho, ih]

/-- Evaluation of a memory-path `acceptIntentOffer` on a pending intent. -/
theorem acceptIntentOffer_pending_eq (st : MeshStore)
    (intentId offerId executorAddress : String) (w : Int) (i : Intent)
    (h1 : getIntent st intentId = some i) (h2 : i.status = "pending") :
    acceptIntentOffer st intentId offerId executorAddress w =
      (.ok (some (applyStatusUpdate i "accepted"
          ⟨some offerId, some executorAddress⟩ w)),
        { st with
            intents :=
              alistSet st.intents intentId
                (applyStatusUpdate i "accepted"
                  ⟨some offerId, some executorAddress⟩ w) }) := by
  have hnp : ¬ i.status ≠ "pending" := by simp [h2]
  simp [acceptIntentOffer, updateIntentStatus, h1, hnp]

/-! ## C1 — concurrent `acceptIntentOffer` -/

/-- C1 counterexample.  The claim says every backend, including the
in-memory store, gives exactly one `ok:true` to two concurrent
`acceptIntentOffer` calls on a pending intent.  In the memory backend the
status read and the conditional write are separated by an `await`: under the
interleaving read-A, read-B, write-A, write-B both calls observe `pending`
and both return `ok:true`. -/
theorem c1_memory_double_accept :
    ((runTwoAccepts ⟨"i1", "offA", "EQA"⟩ ⟨"i1", "offB", "EQB"⟩ 42
        [true, false, true, false]
        (.start, .start, storeWithI1)).1.finishedOk = true) ∧
    ((runTwoAccepts ⟨"i1", "offA", "EQA"⟩ ⟨"i1", "offB", "EQB"⟩ 42
        [true, false, true, false]
        (.start, .start, storeWithI1)).2.1.finishedOk = true) := by
  decide

/-- C1 (amended): for the Postgres/Supabase backends the check-and-update is
one atomic step, and two calls in either order produce exactly one `ok:true`,
the loser observing `intent_not_pending`; the in-memory backend guarantees
this only for serial (non-interleaved) executions, modelled here by running
one full call after the other. -/
theorem c1_serial_exactly_one_winner (st : MeshStore)
    (intentId oA eA oB eB : String) (w : Int) (i : Intent)
    (h1 : getIntent st intentId = some i) (h2 : i.status = "pending") :
    (((acceptIntentOffer st intentId oA eA w).1.isOk = true) ∧
      ((acceptIntentOffer (acceptIntentOffer st intentId oA eA w).2
          intentId oB eB w).1 =
        .notPending (applyStatusUpdate i "accepted" ⟨some oA, some eA⟩ w))) ∧
    (((acceptIntentOfferAtomic st intentId oA eA w).1.isOk = true) ∧
      ((acceptIntentOfferAtomic (acceptIntentOfferAtomic st intentId oA eA w).2
          intentId oB eB w).1.isOk = false)) := by
  have e1 := acceptIntentOffer_pending_eq st intentId oA eA w i h1 h2
  set st1 := (acceptIntentOffer st intentId oA eA w).2 with hst1
  have hget2 : getIntent st1 intentId =
      some (applyStatusUpdate i "accepted" ⟨some oA, some eA⟩ w) := by
    rw [hst1, e1]
    simp [getIntent, alistGet_alistSet_self]
  have hst : (applyStatusUpdate i "accepted" ⟨some oA, some eA⟩ w).status =
      "accepted" := by
    simp [applyStatusUpdate]
  have hmain :
      ((acceptIntentOffer st intentId oA eA w).1.isOk = true) ∧
        ((acceptIntentOffer st1 intentId oB eB w).1 =
          .notPending (applyStatusUpdate i "accepted" ⟨some oA, some eA⟩ w)) := by
    constructor
    · rw [e1]
      rfl
    · rw [acceptIntentOffer, hget2]
      simp [hst]
  exact ⟨hmain, ⟨hmain.1, by
    have h := hmain.2
    simp only [acceptIntentOfferAtomic]
    rw [h]
    rfl⟩⟩

/-- C1 witness for the amended theorem at a concrete pending intent. -/
theorem c1_serial_exactly_one_winner_witness :
    ((acceptIntentOffer storeWithI1 "i1" "offA" "EQA" 42).1.isOk = true) ∧
      ((acceptIntentOffer (acceptIntentOffer storeWithI1 "i1" "offA" "EQA" 42).2
          "i1" "offB" "EQB" 42).1 =
        .notPending (applyStatusUpdate pendingIntentI1 "accepted"
          ⟨some "offA", some "EQA"⟩ 42)) := by
  exact (c1_serial_exactly_one_winner storeWithI1 "i1" "offA" "EQA" "offB" "EQB" 42
    pendingIntentI1 (by decide) (by decide)).1

/-! ## C2 — intent status DAG -/

/-- C2: the claimed invariant is right and the code violates it.  The inbound
`settle` handler (index.js:410-432) calls
`updateIntentStatus(msg.intentId, 'settled')` without checking the current
status, so a `settle` message for a still-`pending` intent performs the
transition `pending → settled`, which is outside the DAG
{pending→accepted, pending→expired, accepted→settled}. -/
theorem c2_settle_on_pending_leaves_dag :
    ((getIntent storeWithI1 "i1").map (·.status) = some "pending") ∧
    ((getIntent
        (handleSettleStoreEffect storeWithI1 "i1" (some "EQY") (some "0xabc")
          (some "success") (some 9) 50) "i1").map (·.status) = some "settled") ∧
    ("pending", "settled") ∉ intentDagEdges := by
  decide

/-! ## C6 — local-fallback `recordOutcome` -/

/-- C6: in the local fallback (`strictChain = false`, fallback allowed, no
host adapter), a first `recordOutcome` for a fresh `txHash` applies exactly
the delta table `rating ≥ 9 ⇒ +15; ≥ 7 ⇒ +8; ≥ 5 ⇒ +2; ≥ 3 ⇒ −10; else −25`
with the new score clamped at `≥ 0` (scores of other executors untouched),
and a `recordOutcome` whose `txHash` was already seen — in particular one
seen for the same executor — raises the replay error and leaves the whole
state unchanged. -/
theorem c6_recordOutcome_table_and_replay (st : RepState)
    (executor txHash : String) (rating : ℚ) :
    (txHash ∉ st.txSeen →
      (recordOutcome false true st executor txHash rating).2 =
        .ok ⟨executor, txHash, rating, reputationDeltaForRating rating,
          max 0 ((st.lookupScore executor).getD 100 + reputationDeltaForRating rating)⟩ ∧
      (recordOutcome false true st executor txHash rating).1.lookupScore executor =
        some (max 0 ((st.lookupScore executor).getD 100 + reputationDeltaForRating rating)) ∧
      ∀ a, a ≠ executor →
        (recordOutcome false true st executor txHash rating).1.lookupScore a =
          st.lookupScore a) ∧
    (reputationDeltaForRating rating =
      if rating ≥ 9 then 15 else if rating ≥ 7 then 8 else if rating ≥ 5 then 2
      else if rating ≥ 3 then -10 else -25) ∧
    (txHash ∈ st.txSeen →
      recordOutcome false true st executor txHash rating =
        (st, .error "Replay detected: txHash already processed")) := by
  refine ⟨fun hfresh => ?_, rfl, fun hseen => ?_⟩
  · have hcond : txHash ∉ st.txSeen := hfresh
    refine ⟨?_, ?_, ?_⟩
    · simp [recordOutcome, hcond]
    · simp [recordOutcome, hcond, RepState.setScore, RepState.lookupScore,
        alistGet_alistSet_self]
    · intro a ha
      simp [recordOutcome, hcond, RepState.setScore, RepState.lookupScore,
        alistGet_alistSet_ne _ _ _ _ ha]
  · simp [recordOutcome, hseen]

/-- C6 witness: fresh hash on an unknown executor with rating 9 yields
`100 + 15 = 115`; replaying the same hash errors and changes nothing. -/
theorem c6_recordOutcome_witness :
    ((recordOutcome false true ⟨[], [], [], []⟩ "EQY" "0xabc" 9).2 =
      .ok ⟨"EQY", "0xabc", 9, reputationDeltaForRating 9,
        max 0 ((RepState.lookupScore ⟨[], [], [], []⟩ "EQY").getD 100 +
          reputationDeltaForRating 9)⟩) ∧
    (recordOutcome false true ⟨[("EQY", 115)], [], [], ["0xabc"]⟩ "EQY" "0xabc" 9 =
      (⟨[("EQY", 115)], [], [], ["0xabc"]⟩,
        .error "Replay detected: txHash already processed")) := by
  constructor
  · exact ((c6_recordOutcome_table_and_replay ⟨[], [], [], []⟩ "EQY" "0xabc" 9).1
      (by decide)).1
  · exact (c6_recordOutcome_table_and_replay ⟨[("EQY", 115)], [], [], ["0xabc"]⟩
      "EQY" "0xabc" 9).2.2 (by decide)

/-! ## C7 — strict-chain `verifyPayment` -/

/-- C7 counterexample.  The claim says `strictChain = true` alone forbids the
demo fallback regardless of `allowLocalReputationFallback`; but the code
gates `verifyPayment`'s fallback on `localFallbackAllowed`
(part_004:279-282), and an explicit `allowLocalReputationFallback = true`
overrides strict mode (part_004:55-60): the client built from
`{mode:'testnet', strictChain:true, allowLocalReputationFallback:true}` is in
strict-chain mode yet accepts the non-empty hash `"0xabc"`. -/
theorem c7_strict_with_fallback_accepts :
    (isStrictChainMode ⟨some "testnet", some true, some true⟩ "" = true) ∧
    ((verifyPayment
        (allowLocalFallback ⟨some "testnet", some true, some true⟩ "")
        (some "0xabc")).ok = true) := by
  decide

/-- C7 (amended): when local fallback is actually disallowed — i.e.
`strictChain` holds and `allowLocalReputationFallback` is not explicitly set
to `true` — `verifyPayment` without a host verifier never returns `ok:true`;
the "any non-empty hash passes" demo fallback is unreachable. -/
theorem c7_strict_no_fallback_never_ok (cfg : RepConfig) (envMode : String)
    (txHash : Option String)
    (h1 : isStrictChainMode cfg envMode = true)
    (h2 : cfg.allowLocalReputationFallback ≠ some true) :
    (verifyPayment (allowLocalFallback cfg envMode) txHash).ok = false := by
  have hfb : allowLocalFallback cfg envMode = false := by
    unfold allowLocalFallback
    match hc : cfg.allowLocalReputationFallback with
    | some true => exact absurd hc h2
    | some false => rfl
    | none => simp [h1]
  match txHash with
  | none => simp [verifyPayment, VerifyResult.ok]
  | some h =>
    by_cases he : h = "" <;> simp [verifyPayment, he, hfb, VerifyResult.ok]

/-- C7 witness for the amended theorem: explicit `strictChain = true`, the
fallback flag left unset. -/
theorem c7_strict_no_fallback_never_ok_witness :
    (verifyPayment (allowLocalFallback ⟨some "testnet", some true, none⟩ "")
      (some "0xabc")).ok = false :=
  c7_strict_no_fallback_never_ok ⟨some "testnet", some true, none⟩ "" (some "0xabc")
    (by decide) (by decide)

/-! ## C8 — `expireIntents` -/

theorem expireIntentsLoop_spec (ts w : Int) (l : List (String × Intent)) :
    expireIntentsLoop ts w l =
      ((l.filter (fun p => decide (p.2.status = "pending" ∧ p.2.deadline < ts))).map
          (fun p => { p.2 with status := "expired", updatedAt := w }),
        l.map (fun p =>
          if p.2.status = "pending" ∧ p.2.deadline < ts then
            (p.1, { p.2 with status := "expired", updatedAt := w })
          else p)) := by
  induction l with
  | nil => simp [expireIntentsLoop]
  | cons p rest ih =>
    obtain ⟨k, i⟩ := p
    by_cases h : i.status = "pending" ∧ i.deadline < ts <;>
      simp [expireIntentsLoop, ih, h]

/-- C8: `expireIntents(t)` flips to `expired` exactly the intents that were
`pending` with `deadline < t` (stamping their `updatedAt`), returns exactly
those updated intents in table order, leaves every other intent entry — and
every other table of the store — unchanged. -/
theorem c8_expireIntents_exact (st : MeshStore) (ts wallNow : Int) :
    ((expireIntents st ts wallNow).2.intents =
      st.intents.map (fun p =>
        if p.2.status = "pending" ∧ p.2.deadline < ts then
          (p.1, { p.2 with status := "expired", updatedAt := wallNow })
        else p)) ∧
    ((expireIntents st ts wallNow).1 =
      (st.intents.filter
          (fun p => decide (p.2.status = "pending" ∧ p.2.deadline < ts))).map
        (fun p => { p.2 with status := "expired", updatedAt := wallNow })) ∧
    (expireIntents st ts wallNow).2.peers = st.peers ∧
    (expireIntents st ts wallNow).2.offers = st.offers ∧
    (expireIntents st ts wallNow).2.deals = st.deals ∧
    (expireIntents st ts wallNow).2.processedMessages = st.processedMessages := by
  refine ⟨?_, ?_, ?_, ?_, ?_, ?_⟩ <;>
    simp [expireIntents, expireIntentsLoop_spec]

/-! ## C10 — frame effect of a successful accept -/

/-- C10: a successful memory-path `acceptIntentOffer` rewrites only the
target intent — setting `status`, `acceptedOfferId`, `selectedExecutor`,
`updatedAt` and preserving `id`, `fromAddress`, `skill`, `payload`, `budget`,
`deadline`, `minReputation`, `createdAt` — and touches no other intent and no
peer, offer, deal or processed-message record. -/
theorem c10_accept_frame (st : MeshStore) (intentId offerId executorAddress : String)
    (wallNow : Int) (i : Intent)
    (h1 : getIntent st intentId = some i) (h2 : i.status = "pending") :
    ((acceptIntentOffer st intentId offerId executorAddress wallNow).1 =
      .ok (some { i with status := "accepted",
                         acceptedOfferId := some offerId,
                         selectedExecutor := some executorAddress,
                         updatedAt := wallNow })) ∧
    (getIntent (acceptIntentOffer st intentId offerId executorAddress wallNow).2
        intentId =
      some { i with status := "accepted",
                    acceptedOfferId := some offerId,
                    selectedExecutor := some executorAddress,
                    updatedAt := wallNow }) ∧
    (∀ k, k ≠ intentId →
      getIntent (acceptIntentOffer st intentId offerId executorAddress wallNow).2 k =
        getIntent st k) ∧
    (acceptIntentOffer st intentId offerId executorAddress wallNow).2.peers =
      st.peers ∧
    (acceptIntentOffer st intentId offerId executorAddress wallNow).2.offers =
      st.offers ∧
    (acceptIntentOffer st intentId offerId executorAddress wallNow).2.deals =
      st.deals ∧
    (acceptIntentOffer st intentId offerId executorAddress wallNow).2.processedMessages =
      st.processedMessages := by
  have e1 := acceptIntentOffer_pending_eq st intentId offerId executorAddress
    wallNow i h1 h2
  have hupd : applyStatusUpdate i "accepted" ⟨some offerId, some executorAddress⟩
      wallNow =
      { i with status := "accepted",
               acceptedOfferId := some offerId,
               selectedExecutor := some executorAddress,
               updatedAt := wallNow } := by
    simp [applyStatusUpdate]
  rw [hupd] at e1
  refine ⟨?_, ?_, fun k hk => ?_, ?_, ?_, ?_, ?_⟩
  · rw [e1]
  · rw [e1]
    simp [getIntent, alistGet_alistSet_self]
  · rw [e1]
    simp [getIntent, alistGet_alistSet_ne _ _ _ _ hk]
  · rw [e1]
  · rw [e1]
  · rw [e1]
  · rw [e1]

/-- C10 witness at a concrete pending intent. -/
theorem c10_accept_frame_witness :
    (acceptIntentOffer storeWithI1 "i1" "offA" "EQA" 42).1 =
      .ok (some { pendingIntentI1 with status := "accepted",
                                       acceptedOfferId := some "offA",
                                       selectedExecutor := some "EQA",
                                       updatedAt := 42 }) :=
  (c10_accept_frame storeWithI1 "i1" "offA" "EQA" 42 pendingIntentI1
    (by decide) (by decide)).1

/-! ## Ranking lemmas -/

theorem specNormalize_eq_normalize (values : List ℚ) :
    specNormalize values = normalize values := by
  cases values with
  | nil => rfl
  | cons v vs => simp [specNormalize, normalize, List.min?, List.max?]

theorem normalize_getElem? (l : List ℚ) (i : ℕ) :
    (normalize l)[i]? = (l[i]?).map (normFun l) := by
  cases l with
  | nil => simp [normalize]
  | cons v vs =>
    by_cases h : vs.foldl max v = vs.foldl min v
    · have hf : normFun (v :: vs) = fun _ => (1 : ℚ) := by
        funext x
        simp [normFun, headMin, headMax, h]
      simp only [normalize, if_pos h, hf, List.getElem?_map]
    · have hf : normFun (v :: vs) =
          fun n => (n - vs.foldl min v) / (vs.foldl max v - vs.foldl min v) := by
        funext x
        simp [normFun, headMin, headMax, h]
      simp only [normalize, if_neg h, hf, List.getElem?_map]

theorem combineScores_getElem? (w : Weights) :
    ∀ (os : List StoredOffer) (lrs rs fs ss : List ℚ) (i : ℕ),
    (combineScores w os lrs rs fs ss)[i]? =
      match os[i]?, lrs[i]?, rs[i]?, fs[i]?, ss[i]? with
      | some o, some lr, some r, some f, some s =>
        some { offer := o, liveReputation := lr,
               stakeAgeSeconds := o.stakeAgeSeconds,
               score := round4 (w.reputation * r + w.fee * (1 - f) + w.speed * s) }
      | _, _, _, _, _ => none
  | [], lrs, rs, fs, ss, i => by
    simp [combineScores]
  | o :: os, [], rs, fs, ss, i => by
    simp [combineScores]
  | o :: os, lr :: lrs, [], fs, ss, i => by
    simp [combineScores]
  | o :: os, lr :: lrs, r :: rs, [], ss, i => by
    simp [combineScores]
  | o :: os, lr :: lrs, r :: rs, f :: fs, [], i => by
    simp [combineScores]
  | o :: os, lr :: lrs, r :: rs, f :: fs, s :: ss, 0 => by
    simp [combineScores]
  | o :: os, lr :: lrs, r :: rs, f :: fs, s :: ss, i + 1 => by
    simpa [combineScores] using combineScores_getElem? w os lrs rs fs ss i

/-- Elementwise characterisation of `scoreOffers`. -/
theorem scoreOffers_getElem? (w : Weights) (live : String → Option ℚ)
    (offers : List StoredOffer) (i : ℕ) :
    (scoreOffers w live offers)[i]? =
      (offers[i]?).map (fun o =>
        { offer := o, liveReputation := liveRepOf live o,
          stakeAgeSeconds := o.stakeAgeSeconds,
          score := round4
            (w.reputation *
                normFun (offers.map (liveRepOf live)) (liveRepOf live o) +
              w.fee * (1 - normFun (offers.map (·.fee)) o.fee) +
              w.speed *
                normFun (offers.map (fun o => speedValue (parseEtaSeconds o.eta)))
                  (speedValue (parseEtaSeconds o.eta))) }) := by
  unfold scoreOffers
  rw [combineScores_getElem?]
  cases h : offers[i]? <;>
    simp [normalize_getElem?, List.getElem?_map, h]

theorem getElem?_mapIdx {α β : Type} (f : ℕ → α → β) :
    ∀ (l : List α) (i : ℕ), (List.mapIdx f l)[i]? = (l[i]?).map (f i)
  | [], i => by simp
  | a :: l, 0 => by simp
  | a :: l, i + 1 => by
    simpa [List.mapIdx_cons] using getElem?_mapIdx (fun i => f (i + 1)) l i

theorem leScore_eq_specLeScore : leScore = specLeScore := by
  funext a b
  unfold leScore specLeScore
  by_cases h : b.score = a.score
  · simp only [if_pos h, h]
    rw [show (decide (b.liveReputation ≤ a.liveReputation)) =
        decide (a.liveReputation ≥ b.liveReputation) from rfl]
    rw [Bool.eq_iff_iff]
    simp [lt_irrefl]
  · simp only [if_neg h]
    rw [Bool.eq_iff_iff]
    simp only [decide_eq_true_eq]
    constructor
    · intro hle
      exact Or.inl (lt_of_le_of_ne hle h)
    · rintro (hlt | ⟨heq, _⟩)
      · exact le_of_lt hlt
      · exact absurd heq.symm h

theorem leTie_eq_specLeTie : leTie = specLeTie := by
  funext a b
  unfold leTie specLeTie
  by_cases h : b.stakeAgeSeconds = a.stakeAgeSeconds
  · simp only [if_pos h, h]
    rw [Bool.eq_iff_iff]
    simp [lt_irrefl]
  · simp only [if_neg h]
    rw [Bool.eq_iff_iff]
    simp only [decide_eq_true_eq]
    constructor
    · intro hle
      exact Or.inl (lt_of_le_of_ne hle h)
    · rintro (hlt | ⟨heq, _⟩)
      · exact le_of_lt hlt
      · exact absurd heq.symm h

/-- `pickBestOffer` is exactly the spec-side selection when the tie window is
non-negative (the code's singleton shortcut coincides with re-sorting). -/
theorem pickBestOffer_eq_specSelectBest (tieWindow : ℚ) (htw : 0 ≤ tieWindow)
    (l : List ScoredOffer) :
    pickBestOffer tieWindow l = specSelectBest tieWindow l := by
  unfold pickBestOffer specSelectBest
  rw [leScore_eq_specLeScore, leTie_eq_specLeTie]
  cases hs : jsSort specLeScore l with
  | nil => rfl
  | cons best rest =>
    simp only
    have hpred : decide (|best.score - best.score| ≤ tieWindow) = true := by
      simp [htw]
    have hcomps :
        List.filter (fun o => decide (|best.score - o.score| ≤ tieWindow))
            (best :: rest) =
          best ::
            List.filter (fun o => decide (|best.score - o.score| ≤ tieWindow))
              rest := by
      simp only [List.filter_cons, hpred, if_true]
    by_cases hlen :
        (List.filter (fun o => decide (|best.score - o.score| ≤ tieWindow))
          (best :: rest)).length = 1
    · rw [if_pos hlen]
      rw [hcomps] at hlen ⊢
      have hlen0 :
          (List.filter (fun o => decide (|best.score - o.score| ≤ tieWindow))
            rest).length = 0 := by
        rw [List.length_cons] at hlen
        omega
      rw [List.eq_nil_of_length_eq_zero hlen0]
      rfl
    · rw [if_neg hlen]

theorem foldl_min_le_init (vs : List ℚ) : ∀ v : ℚ, vs.foldl min v ≤ v := by
  induction vs with
  | nil => intro v; simp
  | cons a vs ih =>
    intro v
    calc (a :: vs).foldl min v = vs.foldl min (min v a) := by simp
    _ ≤ min v a := ih (min v a)
    _ ≤ v := min_le_left _ _

theorem init_le_foldl_max (vs : List ℚ) : ∀ v : ℚ, v ≤ vs.foldl max v := by
  induction vs with
  | nil => intro v; simp
  | cons a vs ih =>
    intro v
    calc v ≤ max v a := le_max_left _ _
    _ ≤ vs.foldl max (max v a) := ih (max v a)
    _ = (a :: vs).foldl max v := by simp

theorem headMin_le_headMax (l : List ℚ) : headMin l ≤ headMax l := by
  cases l with
  | nil => simp [headMin, headMax]
  | cons v vs =>
    calc headMin (v :: vs) = vs.foldl min v := rfl
    _ ≤ v := foldl_min_le_init vs v
    _ ≤ vs.foldl max v := init_le_foldl_max vs v
    _ = headMax (v :: vs) := rfl

theorem normFun_mono (l : List ℚ) {x y : ℚ} (h : x ≤ y) :
    normFun l x ≤ normFun l y := by
  unfold normFun
  by_cases hd : headMax l = headMin l
  · simp [hd]
  · rw [if_neg hd, if_neg hd]
    have hlt : 0 < headMax l - headMin l :=
      sub_pos.mpr (lt_of_le_of_ne (headMin_le_headMax l) (Ne.symm hd))
    exact (div_le_div_iff_of_pos_right hlt).mpr (sub_le_sub_right h _)

theorem round4_mono {x y : ℚ} (h : x ≤ y) : round4 x ≤ round4 y := by
  unfold round4
  have hm : x * 10000 ≤ y * 10000 := by nlinarith
  by_cases hx : x ≥ 0
  · have hy : y ≥ 0 := le_trans hx h
    rw [if_pos hx, if_pos hy]
    have := Int.floor_mono (show x * 10000 + 1 / 2 ≤ y * 10000 + 1 / 2 by linarith)
    have hc : ((⌊x * 10000 + 1 / 2⌋ : ℤ) : ℚ) ≤ ((⌊y * 10000 + 1 / 2⌋ : ℤ) : ℚ) := by
      exact_mod_cast this
    linarith
  · by_cases hy : y ≥ 0
    · rw [if_neg hx, if_pos hy]
      have h1 : (0 : ℤ) ≤ ⌊y * 10000 + 1 / 2⌋ := by
        apply Int.floor_nonneg.mpr
        have : (0 : ℚ) ≤ y * 10000 := by nlinarith
        linarith
      have h2 : (0 : ℤ) ≤ ⌊-(x * 10000) + 1 / 2⌋ := by
        apply Int.floor_nonneg.mpr
        have hx2 : x * 10000 ≤ 0 := by nlinarith [lt_of_not_ge hx]
        linarith
      have hq1 : ((0 : ℤ) : ℚ) ≤ ((⌊y * 10000 + 1 / 2⌋ : ℤ) : ℚ) := by exact_mod_cast h1
      have hq2 : ((0 : ℤ) : ℚ) ≤ ((⌊-(x * 10000) + 1 / 2⌋ : ℤ) : ℚ) := by exact_mod_cast h2
      push_cast at hq1 hq2 ⊢
      linarith
    · rw [if_neg hx, if_neg hy]
      have := Int.floor_mono
        (show -(y * 10000) + 1 / 2 ≤ -(x * 10000) + 1 / 2 by linarith)
      have hc : ((⌊-(y * 10000) + 1 / 2⌋ : ℤ) : ℚ) ≤
          ((⌊-(x * 10000) + 1 / 2⌋ : ℤ) : ℚ) := by exact_mod_cast this
      have : -((⌊-(x * 10000) + 1 / 2⌋ : ℤ) : ℚ) ≤
          -((⌊-(y * 10000) + 1 / 2⌋ : ℤ) : ℚ) := by linarith
      push_cast at this ⊢
      linarith

/-! ## C4 — scoring and best-offer selection vs the reference algorithm -/

/-- C4 counterexample.  The claim states the score is exactly
`S = 0.5·repNorm + 0.3·(1 − feeNorm) + 0.2·speedNorm`; the code stores
`Number(score.toFixed(4))` (router.js:69).  On a concrete three-offer input
the third offer's exact `S` is `6274/6375 = 0.98415686…` while the code
produces the rounded `4921/5000 = 0.9842`. -/
theorem c4_code_rounds_scores :
    ((scoreOffers defaultWeights rankNoLive [rankOffA, rankOffB, rankOffC]).map
        (·.score) = [1, 0, 4921 / 5000]) ∧
    ((specScoreOffers defaultWeights rankNoLive [rankOffA, rankOffB, rankOffC]).map
        (·.score) = [1, 0, 6274 / 6375]) ∧
    ((4921 / 5000 : ℚ) ≠ 6274 / 6375) := by
  have p1 : parseEtaParts "1s" = some (1, 0, 0, "s") := by decide
  have p2 : parseEtaParts "2s" = some (2, 0, 0, "s") := by decide
  have p3 : parseEtaParts "1.02s" = some (1, 2, 2, "s") := by decide
  refine ⟨?_, ?_, by norm_num⟩ <;>
    norm_num +decide [scoreOffers, specScoreOffers, specNormalize_eq_normalize,
      normalize, liveRepOf, speedValue, parseEtaSeconds, defaultWeights,
      mkRankOffer, rankOffA, rankOffB, rankOffC, rankNoLive, maxSafeInteger,
      p1, p2, p3, min_def, max_def, combineScores, round4, List.mapIdx_cons,
      List.getD, List.map_cons, List.map_nil, List.foldl_cons, List.foldl_nil,
      Option.getD_some, Option.getD_none]

/-- C4 (amended): the pipeline implements the reference algorithm with the
score rounded to four decimal places (`toFixed(4)`): `scoreOffers` equals the
spec-side scoring with rounding, and for a non-negative tie window
`pickBestOffer` equals the spec-side selection (sort by score descending then
live reputation descending; re-sort the `|S_best − S| ≤ tieWindow` window by
stake age descending then `createdAt` ascending; take the first). -/
theorem c4_pipeline_refines_spec (w : Weights) (live : String → Option ℚ)
    (offers : List StoredOffer) (tieWindow : ℚ) (htw : 0 ≤ tieWindow) :
    scoreOffers w live offers = specScoreOffersRounded w live offers ∧
    pickBestOffer tieWindow (scoreOffers w live offers) =
      specSelectBest tieWindow (specScoreOffersRounded w live offers) := by
  have h1 : scoreOffers w live offers = specScoreOffersRounded w live offers := by
    apply List.ext_getElem?
    intro i
    rw [scoreOffers_getElem?]
    cases ho : offers[i]? with
    | none =>
      simp [specScoreOffersRounded, specScoreOffers, List.getElem?_map,
        getElem?_mapIdx, ho]
    | some o =>
      have hrep : (offers.map (liveRepOf live))[i]? = some (liveRepOf live o) := by
        simp [List.getElem?_map, ho]
      have hfee : (offers.map (·.fee))[i]? = some o.fee := by
        simp [List.getElem?_map, ho]
      have hspd : (offers.map (fun o => speedValue (parseEtaSeconds o.eta)))[i]? =
          some (speedValue (parseEtaSeconds o.eta)) := by
        simp [List.getElem?_map, ho]
      simp [specScoreOffersRounded, specScoreOffers, List.getElem?_map,
        getElem?_mapIdx, ho, specNormalize_eq_normalize, normalize_getElem?,
        hrep, hfee, hspd, List.getD_eq_getElem?_getD]
  refine ⟨h1, ?_⟩
  rw [h1]
  exact pickBestOffer_eq_specSelectBest tieWindow htw _

/-- C4 witness for the amended refinement at a concrete input. -/
theorem c4_pipeline_refines_spec_witness :
    (0 : ℚ) ≤ 5 / 100 ∧
    (scoreOffers defaultWeights rankNoLive [rankOffA, rankOffB] =
      specScoreOffersRounded defaultWeights rankNoLive [rankOffA, rankOffB] ∧
    pickBestOffer (5 / 100)
        (scoreOffers defaultWeights rankNoLive [rankOffA, rankOffB]) =
      specSelectBest (5 / 100)
        (specScoreOffersRounded defaultWeights rankNoLive [rankOffA, rankOffB])) :=
  ⟨by norm_num,
    c4_pipeline_refines_spec defaultWeights rankNoLive [rankOffA, rankOffB]
      (5 / 100) (by norm_num)⟩

/-! ## C5 — adding a strictly dominated offer -/

/-- C5 counterexample.  `rankOffC` is strictly dominated by `rankOffA`
(lower reputation 99 < 100, higher fee 1.01 > 1, slower eta 1.02s > 1s), yet
adding it changes the winner: without it `rankOffA` wins; with it `rankOffC`
lands inside the 0.05 tie window (scores 1.0 vs 0.9842) and wins the
stake-age re-sort (10⁶ vs 0). -/
theorem c5_dominated_offer_changes_winner :
    (liveRepOf rankNoLive rankOffC < liveRepOf rankNoLive rankOffA) ∧
    (rankOffA.fee < rankOffC.fee) ∧
    (parseEtaSeconds rankOffA.eta < parseEtaSeconds rankOffC.eta) ∧
    ((pickBestOffer (5 / 100)
        (scoreOffers defaultWeights rankNoLive [rankOffA, rankOffB])).map
      (·.offer.id) = some "a") ∧
    ((pickBestOffer (5 / 100)
        (scoreOffers defaultWeights rankNoLive [rankOffA, rankOffB, rankOffC])).map
      (·.offer.id) = some "c") := by
  have p1 : parseEtaParts "1s" = some (1, 0, 0, "s") := by decide
  have p2 : parseEtaParts "2s" = some (2, 0, 0, "s") := by decide
  have p3 : parseEtaParts "1.02s" = some (1, 2, 2, "s") := by decide
  refine ⟨?_, ?_, ?_, ?_, ?_⟩ <;>
    norm_num +decide [pickBestOffer, scoreOffers, normalize, liveRepOf,
      speedValue, parseEtaSeconds, defaultWeights, mkRankOffer, rankOffA,
      rankOffB, rankOffC, rankNoLive, maxSafeInteger, p1, p2, p3, min_def,
      max_def, combineScores, round4, jsSort, jsSortInsert, leScore, leTie,
      abs, List.map_cons, List.map_nil, List.foldl_cons, List.foldl_nil,
      Option.getD_some, Option.getD_none, List.filter, List.length]

/-- C5 (amended): an offer strictly dominated by some other candidate (lower
live reputation, higher fee, lower speed value) never receives a higher score
than its dominator — but, as the counterexample shows, it can still win the
selection through the tie-window stake-age re-sort, so adding it can change
the winner. -/
theorem c5_dominated_never_outscores (w : Weights) (live : String → Option ℚ)
    (offers : List StoredOffer) (i j : ℕ) (a c : StoredOffer)
    (ha : offers[i]? = some a) (hc : offers[j]? = some c)
    (hrep : liveRepOf live c < liveRepOf live a)
    (hfee : a.fee < c.fee)
    (hspeed : speedValue (parseEtaSeconds c.eta) < speedValue (parseEtaSeconds a.eta))
    (hwr : 0 ≤ w.reputation) (hwf : 0 ≤ w.fee) (hws : 0 ≤ w.speed) :
    ∀ sa sc, (scoreOffers w live offers)[i]? = some sa →
      (scoreOffers w live offers)[j]? = some sc → sc.score ≤ sa.score := by
  intro sa sc hsa hsc
  rw [scoreOffers_getElem?, ha] at hsa
  rw [scoreOffers_getElem?, hc] at hsc
  simp only [Option.map_some', Option.some.injEq] at hsa hsc
  subst hsa
  subst hsc
  simp only
  apply round4_mono
  have t1 : w.reputation * normFun (offers.map (liveRepOf live)) (liveRepOf live c) ≤
      w.reputation * normFun (offers.map (liveRepOf live)) (liveRepOf live a) :=
    mul_le_mul_of_nonneg_left (normFun_mono _ (le_of_lt hrep)) hwr
  have hf := normFun_mono (offers.map (·.fee)) (le_of_lt hfee)
  have t2 : w.fee * (1 - normFun (offers.map (·.fee)) c.fee) ≤
      w.fee * (1 - normFun (offers.map (·.fee)) a.fee) :=
    mul_le_mul_of_nonneg_left (by linarith) hwf
  have t3 : w.speed *
      normFun (offers.map (fun o => speedValue (parseEtaSeconds o.eta)))
        (speedValue (parseEtaSeconds c.eta)) ≤
      w.speed *
      normFun (offers.map (fun o => speedValue (parseEtaSeconds o.eta)))
        (speedValue (parseEtaSeconds a.eta)) :=
    mul_le_mul_of_nonneg_left (normFun_mono _ (le_of_lt hspeed)) hws
  linarith

/-- C5 witness for the amended theorem at the concrete dominated offer. -/
theorem c5_dominated_never_outscores_witness :
    ∃ sa sc,
      (scoreOffers defaultWeights rankNoLive [rankOffA, rankOffB, rankOffC])[0]? =
        some sa ∧
      (scoreOffers defaultWeights rankNoLive [rankOffA, rankOffB, rankOffC])[2]? =
        some sc ∧ sc.score ≤ sa.score := by
  have p1 : parseEtaParts "1s" = some (1, 0, 0, "s") := by decide
  have p3 : parseEtaParts "1.02s" = some (1, 2, 2, "s") := by decide
  have h0 : ((scoreOffers defaultWeights rankNoLive
      [rankOffA, rankOffB, rankOffC])[0]?).isSome = true := by
    rw [scoreOffers_getElem?]; rfl
  have h2 : ((scoreOffers defaultWeights rankNoLive
      [rankOffA, rankOffB, rankOffC])[2]?).isSome = true := by
    rw [scoreOffers_getElem?]; rfl
  refine ⟨_, _, (Option.some_get h0).symm, (Option.some_get h2).symm, ?_⟩
  exact c5_dominated_never_outscores defaultWeights rankNoLive
    [rankOffA, rankOffB, rankOffC] 0 2 rankOffA rankOffC rfl rfl
    (by norm_num [liveRepOf, rankNoLive, rankOffA, rankOffC, mkRankOffer])
    (by norm_num [rankOffA, rankOffC, mkRankOffer])
    (by norm_num +decide [rankOffA, rankOffC, mkRankOffer, parseEtaSeconds,
      speedValue, maxSafeInteger, p1, p3])
    (by norm_num [defaultWeights]) (by norm_num [defaultWeights])
    (by norm_num [defaultWeights]) _ _ (Option.some_get h0).symm
    (Option.some_get h2).symm

/-! ## Codec lemmas: trimming -/

theorem dropWhile_dropWhile (p : Char → Bool) (l : List Char) :
    (l.dropWhile p).dropWhile p = l.dropWhile p := by
  induction l with
  | nil => rfl
  | cons a t ih =>
    by_cases h : p a
    · simp [List.dropWhile_cons, h, ih]
    · simp [List.dropWhile_cons, h]

theorem exists_append_dropWhile (p : Char → Bool) (l : List Char) :
    ∃ s, s ++ l.dropWhile p = l := by
  induction l with
  | nil => exact ⟨[], rfl⟩
  | cons a t ih =>
    by_cases h : p a
    · obtain ⟨s, hs⟩ := ih
      exact ⟨a :: s, by simp [List.dropWhile_cons, h, hs]⟩
    · exact ⟨[], by simp [List.dropWhile_cons, h]⟩

theorem dropWhile_head_false (p : Char → Bool) (l : List Char) (b : Char)
    (bs : List Char) (h : l.dropWhile p = b :: bs) : p b = false := by
  induction l with
  | nil => exact absurd h (by simp)
  | cons a t ih =>
    by_cases hp : p a
    · exact ih (by simpa [List.dropWhile_cons, hp] using h)
    · rw [List.dropWhile_cons, if_neg hp] at h
      cases h
      exact eq_false_of_ne_true hp

theorem trimChars_trimChars (l : List Char) :
    trimChars (trimChars l) = trimChars l := by
  unfold trimChars
  set x := l.dropWhile isJsWs with hx
  have hxd : x.dropWhile isJsWs = x := dropWhile_dropWhile isJsWs l
  have stepA : ((x.reverse.dropWhile isJsWs).reverse).dropWhile isJsWs =
      (x.reverse.dropWhile isJsWs).reverse := by
    cases hr : (x.reverse.dropWhile isJsWs).reverse with
    | nil => simp
    | cons b bs =>
      obtain ⟨s, hs⟩ := exists_append_dropWhile isJsWs x.reverse
      have hx2 : (x.reverse.dropWhile isJsWs).reverse ++ s.reverse = x := by
        rw [← List.reverse_append, hs, List.reverse_reverse]
      have hxcons : x = b :: (bs ++ s.reverse) := by
        rw [← hx2, hr]
        simp
      have hb : isJsWs b = false := by
        refine dropWhile_head_false isJsWs l b (bs ++ s.reverse) ?_
        rw [← hx, hxcons]
      simp [List.dropWhile_cons, hb]
  rw [stepA]
  have : ((x.reverse.dropWhile isJsWs).reverse).reverse.dropWhile isJsWs =
      x.reverse.dropWhile isJsWs := by
    rw [List.reverse_reverse]
    exact dropWhile_dropWhile isJsWs x.reverse
  rw [this]

theorem jsTrim_jsTrim (s : String) : jsTrim (jsTrim s) = jsTrim s := by
  unfold jsTrim
  rw [show (String.mk (trimChars s.toList)).toList = trimChars s.toList from rfl,
    trimChars_trimChars]

/-! ## Codec lemmas: field stability under re-sanitisation -/

theorem asString_trimmed {x : JVal} {s : String} (h : asString x = some s) :
    asString (.str s) = some s := by
  cases x
  case str s0 =>
    simp only [asString] at h ⊢
    split at h
    next hpos =>
      cases h
      rw [jsTrim_jsTrim]
      simp [hpos]
    next => cases h
  all_goals simp [asString] at h

theorem asString_getD_v (x : JVal) :
    asString (.str ((asString x).getD "1.0")) = some ((asString x).getD "1.0") := by
  cases h : asString x with
  | some s => simpa [h] using asString_trimmed h
  | none =>
    simp only [h, Option.getD_none]
    decide

theorem strField_strField (x : JVal) : strField (strField x) = strField x := by
  unfold strField
  cases h : asString x with
  | none => simp [optStrVal, asString]
  | some s => simp [optStrVal, asString_trimmed h]

theorem asStringArray_strArr (items : List String) :
    asStringArray (strArr items) = some items := by
  induction items with
  | nil => rfl
  | cons s rest ih => simp [strArr, asStringArray, ih]

theorem skillsField_skillsField (x : JVal) :
    skillsField (skillsField x) = skillsField x := by
  unfold skillsField
  cases h : asStringArray x with
  | none => simp [asStringArray]
  | some items => simp [asStringArray_strArr]

theorem replyChatField_replyChatField (x : JVal) :
    replyChatField (replyChatField x) = replyChatField x := by
  unfold replyChatField
  cases x <;> simp

theorem payloadField_payloadField (x : JVal) :
    payloadField (payloadField x) = payloadField x := by
  unfold payloadField
  by_cases h : (x.isObject || x.isArray) = true
  · rw [if_pos h, if_pos h]
  · rw [if_neg h]
    simp [JVal.isObject, JVal.isArray]

theorem asInteger_intCast (n : Int) : asInteger (.num (n : ℚ)) = some n := by
  simp [asInteger, Rat.den_intCast, Rat.num_intCast]

theorem intFieldOrNull_stable (x : JVal) :
    intFieldOrNull (intFieldOrNull x) = intFieldOrNull x := by
  unfold intFieldOrNull
  cases h : asInteger x with
  | none => simp [optIntVal, asInteger]
  | some n => simp [optIntVal, asInteger_intCast]

theorem minRepField_num (q : ℚ) (hq : q.den = 1) :
    minRepField (.num q) = .num q := by
  unfold minRepField
  simp [optIntVal, asInteger, hq, Rat.coe_int_num_of_den_eq_one hq]

theorem selectedAtField_num (w w2 : Int) (x : JVal) :
    selectedAtField w2 (selectedAtField w x) = selectedAtField w x := by
  unfold selectedAtField
  simp [asInteger_intCast]

theorem optionalIntField_stable (x : JVal) :
    optionalIntField (optionalIntField x) =
      (if optionalIntField x = .null then .undef else optionalIntField x) := by
  unfold optionalIntField
  by_cases h : x = JVal.undef ∨ x = JVal.null
  · simp [h]
  · rw [if_neg h]
    cases hi : asInteger x with
    | none => simp [optIntVal]
    | some n => simp [optIntVal, asInteger_intCast]

theorem optionalStrField_stable (x : JVal) :
    optionalStrField (optionalStrField x) =
      (if optionalStrField x = .null then .undef else optionalStrField x) := by
  unfold optionalStrField
  by_cases h : x = JVal.undef ∨ x = JVal.null
  · simp [h]
  · rw [if_neg h]
    cases hi : asString x with
    | none => simp [optStrVal]
    | some s => simp [optStrVal, asString_trimmed hi]

/-! ## Codec lemmas: `undefined`-freedom and the JSON round trip -/

theorem noUndef_optStrVal (o : Option String) : (optStrVal o).noUndef = true := by
  cases o <;> simp [optStrVal, JVal.noUndef]

theorem noUndef_optIntVal (o : Option Int) : (optIntVal o).noUndef = true := by
  cases o <;> simp [optIntVal, JVal.noUndef]

theorem noUndef_strField (x : JVal) : (strField x).noUndef = true :=
  noUndef_optStrVal _

theorem noUndef_intFieldOrNull (x : JVal) : (intFieldOrNull x).noUndef = true :=
  noUndef_optIntVal _

theorem noUndef_strArr (items : List String) : (strArr items).noUndef = true := by
  induction items with
  | nil => rfl
  | cons s rest ih => simp [strArr, JVal.noUndef, ih]

theorem noUndef_skillsField (x : JVal) : (skillsField x).noUndef = true := by
  unfold skillsField
  cases asStringArray x with
  | none => rfl
  | some items => simp [noUndef_strArr]

theorem noUndef_replyChatField (x : JVal) : (replyChatField x).noUndef = true := by
  unfold replyChatField
  cases x <;> rfl

theorem noUndef_minRepField (x : JVal) : (minRepField x).noUndef = true := by
  unfold minRepField
  by_cases h : x = JVal.undef ∨ x = JVal.null
  · simp [h, JVal.noUndef]
  · simp [h, noUndef_optIntVal]

theorem noUndef_selectedAtField (w : Int) (x : JVal) :
    (selectedAtField w x).noUndef = true := rfl

theorem getField_noUndef {j : JVal} (hu : j.noUndef = true) (k : String) :
    j.getField k = .undef ∨ (j.getField k).noUndef = true := by
  induction j with
  | objCons k0 v t ihv iht =>
    simp only [JVal.noUndef, Bool.and_eq_true] at hu
    by_cases hk : k0 = k
    · right
      simpa [JVal.getField, hk] using hu.1
    · simpa [JVal.getField, hk] using iht hu.2
  | _ => left; rfl

theorem jsonRoundTrip_of_noUndef {j : JVal} (hu : j.noUndef = true) :
    j.jsonRoundTrip = j := by
  induction j with
  | arrCons h t ihh iht =>
    simp only [JVal.noUndef, Bool.and_eq_true] at hu
    have hne : h ≠ JVal.undef := by
      intro he
      rw [he] at hu
      simp [JVal.noUndef] at hu
    simp [JVal.jsonRoundTrip, hne, ihh hu.1, iht hu.2]
  | objCons k v t ihv iht =>
    simp only [JVal.noUndef, Bool.and_eq_true] at hu
    have hne : v ≠ JVal.undef := by
      intro he
      rw [he] at hu
      simp [JVal.noUndef] at hu
    simp [JVal.jsonRoundTrip, hne, ihv hu.1, iht hu.2]
  | _ => rfl

/-! ## Codec lemmas: per-kind round trips -/

theorem sanitizeBeacon_roundTrip (w2 : Int) (j m : JVal)
    (ht : j.getField "type" = .str "beacon")
    (h : sanitizeBeacon j = some m) :
    sanitizeMessage w2 m.jsonRoundTrip = some m ∧
      m.getField "type" = .str "beacon" := by
  simp only [sanitizeBeacon] at h
  split at h
  case isFalse => exact absurd h (by simp)
  case isTrue hobj =>
    cases hnb : normalizeBase j with
    | none => rw [hnb] at h; exact absurd h (by simp)
    | some vt =>
      obtain ⟨v, t⟩ := vt
      rw [hnb] at h
      simp only at h
      split at h
      case isFalse => exact absurd h (by simp)
      case isTrue hfields =>
        have hb : asString (JVal.str "beacon") = some "beacon" := by decide
        have hnb2 : t = "beacon" ∧ (asString (j.getField "v")).getD "1.0" = v := by
          unfold normalizeBase at hnb
          rw [ht, hb] at hnb
          simp +decide [knownTypes] at hnb
          exact ⟨hnb.2.symm, hnb.1⟩
        obtain ⟨htb, hv⟩ := hnb2
        subst htb
        cases h
        refine ⟨?_, by simp +decide [beaconMsg, JVal.getField]⟩
        have hnu : (beaconMsg v "beacon" (strField (j.getField "from"))
            (skillsField (j.getField "skills")) (strField (j.getField "minFee"))
            (strField (j.getField "responseTime")) (strField (j.getField "stake"))
            (replyChatField (j.getField "replyChat"))).noUndef = true := by
          simp [beaconMsg, JVal.noUndef, noUndef_strField, noUndef_skillsField,
            noUndef_replyChatField]
        rw [jsonRoundTrip_of_noUndef hnu]
        have hgt : (beaconMsg v "beacon" (strField (j.getField "from"))
            (skillsField (j.getField "skills")) (strField (j.getField "minFee"))
            (strField (j.getField "responseTime")) (strField (j.getField "stake"))
            (replyChatField (j.getField "replyChat"))).getField "type" =
            .str "beacon" := by
          simp +decide [beaconMsg, JVal.getField]
        simp only [sanitizeMessage, hgt]
        simp only [sanitizeBeacon]
        rw [if_pos (by simp [beaconMsg, JVal.isObject])]
        have hvs : asString (JVal.str v) = some v := by
          rw [← hv]
          exact asString_getD_v _
        have hnbm : normalizeBase (beaconMsg v "beacon"
            (strField (j.getField "from")) (skillsField (j.getField "skills"))
            (strField (j.getField "minFee")) (strField (j.getField "responseTime"))
            (strField (j.getField "stake"))
            (replyChatField (j.getField "replyChat"))) = some (v, "beacon") := by
          unfold normalizeBase
          rw [show (beaconMsg v "beacon" (strField (j.getField "from"))
              (skillsField (j.getField "skills")) (strField (j.getField "minFee"))
              (strField (j.getField "responseTime")) (strField (j.getField "stake"))
              (replyChatField (j.getField "replyChat"))).getField "v" =
              .str v from by simp +decide [beaconMsg, JVal.getField]]
          rw [hgt, hb, hvs]
          simp +decide [knownTypes]
        rw [hnbm]
        simp only
        rw [show (beaconMsg v "beacon" (strField (j.getField "from"))
            (skillsField (j.getField "skills")) (strField (j.getField "minFee"))
            (strField (j.getField "responseTime")) (strField (j.getField "stake"))
            (replyChatField (j.getField "replyChat"))).getField "from" =
            strField (j.getField "from") from by simp +decide [beaconMsg, JVal.getField]]
        rw [show (beaconMsg v "beacon" (strField (j.getField "from"))
            (skillsField (j.getField "skills")) (strField (j.getField "minFee"))
            (strField (j.getField "responseTime")) (strField (j.getField "stake"))
            (replyChatField (j.getField "replyChat"))).getField "skills" =
            skillsField (j.getField "skills") from by
          simp +decide [beaconMsg, JVal.getField]]
        rw [show (beaconMsg v "beacon" (strField (j.getField "from"))
            (skillsField (j.getField "skills")) (strField (j.getField "minFee"))
            (strField (j.getField "responseTime")) (strField (j.getField "stake"))
            (replyChatField (j.getField "replyChat"))).getField "minFee" =
            strField (j.getField "minFee") from by simp +decide [beaconMsg, JVal.getField]]
        rw [show (beaconMsg v "beacon" (strField (j.getField "from"))
            (skillsField (j.getField "skills")) (strField (j.getField "minFee"))
            (strField (j.getField "responseTime")) (strField (j.getField "stake"))
            (replyChatField (j.getField "replyChat"))).getField "responseTime" =
            strField (j.getField "responseTime") from by
          simp +decide [beaconMsg, JVal.getField]]
        rw [show (beaconMsg v "beacon" (strField (j.getField "from"))
            (skillsField (j.getField "skills")) (strField (j.getField "minFee"))
            (strField (j.getField "responseTime")) (strField (j.getField "stake"))
            (replyChatField (j.getField "replyChat"))).getField "stake" =
            strField (j.getField "stake") from by simp +decide [beaconMsg, JVal.getField]]
        rw [show (beaconMsg v "beacon" (strField (j.getField "from"))
            (skillsField (j.getField "skills")) (strField (j.getField "minFee"))
            (strField (j.getField "responseTime")) (strField (j.getField "stake"))
            (replyChatField (j.getField "replyChat"))).getField "replyChat" =
            replyChatField (j.getField "replyChat") from by
          simp +decide [beaconMsg, JVal.getField]]
        rw [strField_strField, skillsField_skillsField, strField_strField,
          strField_strField, strField_strField, replyChatField_replyChatField]
        rw [if_pos hfields]

theorem sanitizeDispute_roundTrip (w2 : Int) (j m : JVal)
    (ht : j.getField "type" = .str "dispute")
    (h : sanitizeDispute j = some m) :
    sanitizeMessage w2 m.jsonRoundTrip = some m ∧
      m.getField "type" = .str "dispute" := by
  simp only [sanitizeDispute] at h
  split at h
  case isFalse => exact absurd h (by simp)
  case isTrue hobj =>
    cases hnb : normalizeBase j with
    | none => rw [hnb] at h; exact absurd h (by simp)
    | some vt =>
      obtain ⟨v, t⟩ := vt
      rw [hnb] at h
      simp only at h
      split at h
      case isFalse => exact absurd h (by simp)
      case isTrue hfields =>
        have hb : asString (JVal.str "dispute") = some "dispute" := by decide
        have hnb2 : t = "dispute" ∧ (asString (j.getField "v")).getD "1.0" = v := by
          unfold normalizeBase at hnb
          rw [ht, hb] at hnb
          simp +decide [knownTypes] at hnb
          exact ⟨hnb.2.symm, hnb.1⟩
        obtain ⟨htb, hv⟩ := hnb2
        subst htb
        cases h
        refine ⟨?_, by simp +decide [disputeMsg, JVal.getField]⟩
        set msg := disputeMsg v "dispute" (strField (j.getField "intentId"))
          (strField (j.getField "from")) (strField (j.getField "against"))
          (strField (j.getField "reason")) (strField (j.getField "evidenceTx"))
          with hmsg
        have hnu : msg.noUndef = true := by
          rw [hmsg]
          simp [disputeMsg, JVal.noUndef, noUndef_strField]
        rw [jsonRoundTrip_of_noUndef hnu]
        have hgt : msg.getField "type" = .str "dispute" := by
          rw [hmsg]
          simp +decide [disputeMsg, JVal.getField]
        simp only [sanitizeMessage, hgt]
        simp only [sanitizeDispute]
        rw [if_pos (by rw [hmsg]; simp [disputeMsg, JVal.isObject])]
        have hvs : asString (JVal.str v) = some v := by
          rw [← hv]
          exact asString_getD_v _
        have hnbm : normalizeBase msg = some (v, "dispute") := by
          unfold normalizeBase
          rw [show msg.getField "v" = .str v from by
            rw [hmsg]; simp +decide [disputeMsg, JVal.getField]]
          rw [hgt, hb, hvs]
          simp +decide [knownTypes]
        rw [hnbm]
        simp only
        rw [show msg.getField "intentId" = strField (j.getField "intentId") from by
          rw [hmsg]; simp +decide [disputeMsg, JVal.getField]]
        rw [show msg.getField "from" = strField (j.getField "from") from by
          rw [hmsg]; simp +decide [disputeMsg, JVal.getField]]
        rw [show msg.getField "against" = strField (j.getField "against") from by
          rw [hmsg]; simp +decide [disputeMsg, JVal.getField]]
        rw [show msg.getField "reason" = strField (j.getField "reason") from by
          rw [hmsg]; simp +decide [disputeMsg, JVal.getField]]
        rw [show msg.getField "evidenceTx" = strField (j.getField "evidenceTx") from by
          rw [hmsg]; simp +decide [disputeMsg, JVal.getField]]
        rw [strField_strField, strField_strField, strField_strField,
          strField_strField, strField_strField]
        rw [if_pos hfields]

theorem sanitizeAccept_roundTrip (w w2 : Int) (j m : JVal)
    (ht : j.getField "type" = .str "accept")
    (h : sanitizeAccept w j = some m) :
    sanitizeMessage w2 m.jsonRoundTrip = some m ∧
      m.getField "type" = .str "accept" := by
  simp only [sanitizeAccept] at h
  split at h
  case isFalse => exact absurd h (by simp)
  case isTrue hobj =>
    cases hnb : normalizeBase j with
    | none => rw [hnb] at h; exact absurd h (by simp)
    | some vt =>
      obtain ⟨v, t⟩ := vt
      rw [hnb] at h
      simp only at h
      split at h
      case isFalse => exact absurd h (by simp)
      case isTrue hfields =>
        have hb : asString (JVal.str "accept") = some "accept" := by decide
        have hnb2 : t = "accept" ∧ (asString (j.getField "v")).getD "1.0" = v := by
          unfold normalizeBase at hnb
          rw [ht, hb] at hnb
          simp +decide [knownTypes] at hnb
          exact ⟨hnb.2.symm, hnb.1⟩
        obtain ⟨htb, hv⟩ := hnb2
        subst htb
        cases h
        refine ⟨?_, by simp +decide [acceptMsg, JVal.getField]⟩
        set msg := acceptMsg v "accept" (strField (j.getField "intentId"))
          (strField (j.getField "from")) (strField (j.getField "to"))
          (strField (j.getField "fee"))
          (selectedAtField w (j.getField "selectedAt")) with hmsg
        have hnu : msg.noUndef = true := by
          rw [hmsg]
          simp [acceptMsg, JVal.noUndef, noUndef_strField, noUndef_selectedAtField]
        rw [jsonRoundTrip_of_noUndef hnu]
        have hgt : msg.getField "type" = .str "accept" := by
          rw [hmsg]
          simp +decide [acceptMsg, JVal.getField]
        simp only [sanitizeMessage, hgt]
        simp only [sanitizeAccept]
        rw [if_pos (by rw [hmsg]; simp [acceptMsg, JVal.isObject])]
        have hvs : asString (JVal.str v) = some v := by
          rw [← hv]
          exact asString_getD_v _
        have hnbm : normalizeBase msg = some (v, "accept") := by
          unfold normalizeBase
          rw [show msg.getField "v" = .str v from by
            rw [hmsg]; simp +decide [acceptMsg, JVal.getField]]
          rw [hgt, hb, hvs]
          simp +decide [knownTypes]
        rw [hnbm]
        simp only
        rw [show msg.getField "intentId" = strField (j.getField "intentId") from by
          rw [hmsg]; simp +decide [acceptMsg, JVal.getField]]
        rw [show msg.getField "from" = strField (j.getField "from") from by
          rw [hmsg]; simp +decide [acceptMsg, JVal.getField]]
        rw [show msg.getField "to" = strField (j.getField "to") from by
          rw [hmsg]; simp +decide [acceptMsg, JVal.getField]]
        rw [show msg.getField "fee" = strField (j.getField "fee") from by
          rw [hmsg]; simp +decide [acceptMsg, JVal.getField]]
        rw [show msg.getField "selectedAt" =
            selectedAtField w (j.getField "selectedAt") from by
          rw [hmsg]; simp +decide [acceptMsg, JVal.getField]]
        rw [strField_strField, strField_strField, strField_strField,
          strField_strField, selectedAtField_num w w2]
        rw [if_pos hfields]

theorem sanitizeSettle_roundTrip (w2 : Int) (j m : JVal)
    (ht : j.getField "type" = .str "settle")
    (h : sanitizeSettle j = some m) :
    sanitizeMessage w2 m.jsonRoundTrip = some m ∧
      m.getField "type" = .str "settle" := by
  simp only [sanitizeSettle] at h
  split at h
  case isFalse => exact absurd h (by simp)
  case isTrue hobj =>
    cases hnb : normalizeBase j with
    | none => rw [hnb] at h; exact absurd h (by simp)
    | some vt =>
      obtain ⟨v, t⟩ := vt
      rw [hnb] at h
      simp only at h
      split at h
      case isTrue => exact absurd h (by simp)
      case isFalse hrating =>
        split at h
        case isFalse => exact absurd h (by simp)
        case isTrue hfields =>
          have hb : asString (JVal.str "settle") = some "settle" := by decide
          have hnb2 : t = "settle" ∧ (asString (j.getField "v")).getD "1.0" = v := by
            unfold normalizeBase at hnb
            rw [ht, hb] at hnb
            simp +decide [knownTypes] at hnb
            exact ⟨hnb.2.symm, hnb.1⟩
          obtain ⟨htb, hv⟩ := hnb2
          subst htb
          cases h
          refine ⟨?_, by simp +decide [settleMsg, JVal.getField]⟩
          set msg := settleMsg v "settle" (strField (j.getField "intentId"))
            (strField (j.getField "from")) (strField (j.getField "txHash"))
            (strField (j.getField "outcome"))
            (intFieldOrNull (j.getField "rating")) with hmsg
          have hnu : msg.noUndef = true := by
            rw [hmsg]
            simp [settleMsg, JVal.noUndef, noUndef_strField, noUndef_intFieldOrNull]
          rw [jsonRoundTrip_of_noUndef hnu]
          have hgt : msg.getField "type" = .str "settle" := by
            rw [hmsg]
            simp +decide [settleMsg, JVal.getField]
          simp only [sanitizeMessage, hgt]
          simp only [sanitizeSettle]
          rw [if_pos (by rw [hmsg]; simp [settleMsg, JVal.isObject])]
          have hvs : asString (JVal.str v) = some v := by
            rw [← hv]
            exact asString_getD_v _
          have hnbm : normalizeBase msg = some (v, "settle") := by
            unfold normalizeBase
            rw [show msg.getField "v" = .str v from by
              rw [hmsg]; simp +decide [settleMsg, JVal.getField]]
            rw [hgt, hb, hvs]
            simp +decide [knownTypes]
          rw [hnbm]
          simp only
          rw [show msg.getField "rating" =
              intFieldOrNull (j.getField "rating") from by
            rw [hmsg]; simp +decide [settleMsg, JVal.getField]]
          rw [show msg.getField "intentId" = strField (j.getField "intentId") from by
            rw [hmsg]; simp +decide [settleMsg, JVal.getField]]
          rw [show msg.getField "from" = strField (j.getField "from") from by
            rw [hmsg]; simp +decide [settleMsg, JVal.getField]]
          rw [show msg.getField "txHash" = strField (j.getField "txHash") from by
            rw [hmsg]; simp +decide [settleMsg, JVal.getField]]
          rw [show msg.getField "outcome" = strField (j.getField "outcome") from by
            rw [hmsg]; simp +decide [settleMsg, JVal.getField]]
          rw [strField_strField, strField_strField, strField_strField,
            strField_strField, intFieldOrNull_stable]
          rw [if_neg hrating, if_pos hfields]

theorem minRepField_stable_of_ne_null (x : JVal)
    (h : minRepField x ≠ .null) :
    minRepField (minRepField x) = minRepField x := by
  unfold minRepField at h ⊢
  by_cases h0 : x = JVal.undef ∨ x = JVal.null
  · rw [if_pos h0]
    rw [if_neg (show ¬(JVal.num 0 = JVal.undef ∨ JVal.num 0 = JVal.null) by simp)]
    have h1 : asInteger (JVal.num 0) = some 0 := by decide
    simp [h1, optIntVal]
  · rw [if_neg h0] at h ⊢
    cases hi : asInteger x with
    | none => exact absurd (by simp [hi, optIntVal]) h
    | some n =>
      simp only [hi, optIntVal]
      rw [if_neg (by simp)]
      simp [asInteger_intCast, optIntVal]

theorem noUndef_payloadField {j : JVal} (hu : j.noUndef = true) (k : String) :
    (payloadField (j.getField k)).noUndef = true := by
  unfold payloadField
  rcases getField_noUndef hu k with h | h
  · rw [h]
    rfl
  · by_cases ho : ((j.getField k).isObject || (j.getField k).isArray) = true
    · rw [if_pos ho]
      exact h
    · rw [if_neg ho]
      rfl

theorem strField_ne_undef (x : JVal) : strField x ≠ .undef := by
  unfold strField
  cases asString x <;> simp [optStrVal]

theorem roundTrip_strField (x : JVal) : (strField x).jsonRoundTrip = strField x :=
  jsonRoundTrip_of_noUndef (noUndef_strField x)

theorem noUndef_or_undef_optionalIntField (x : JVal) :
    optionalIntField x = .undef ∨ (optionalIntField x).noUndef = true := by
  unfold optionalIntField
  by_cases h : x = JVal.undef ∨ x = JVal.null
  · left
    simp [h]
  · right
    simp [h, noUndef_optIntVal]

theorem noUndef_or_undef_optionalStrField (x : JVal) :
    optionalStrField x = .undef ∨ (optionalStrField x).noUndef = true := by
  unfold optionalStrField
  by_cases h : x = JVal.undef ∨ x = JVal.null
  · left
    simp [h]
  · right
    simp [h, noUndef_optStrVal]

theorem roundTrip_optionalIntField (x : JVal) :
    (optionalIntField x).jsonRoundTrip = optionalIntField x := by
  rcases noUndef_or_undef_optionalIntField x with h | h
  · rw [h]
    rfl
  · exact jsonRoundTrip_of_noUndef h

theorem roundTrip_optionalStrField (x : JVal) :
    (optionalStrField x).jsonRoundTrip = optionalStrField x := by
  rcases noUndef_or_undef_optionalStrField x with h | h
  · rw [h]
    rfl
  · exact jsonRoundTrip_of_noUndef h

theorem sanitizeOffer_roundTrip (w2 : Int) (j m : JVal)
    (ht : j.getField "type" = .str "offer")
    (h : sanitizeOffer j = some m) :
    sanitizeMessage w2 m.jsonRoundTrip = some (undefifyOfferNulls m) := by
  simp only [sanitizeOffer] at h
  split at h
  case isFalse => exact absurd h (by simp)
  case isTrue hobj =>
    cases hnb : normalizeBase j with
    | none => rw [hnb] at h; exact absurd h (by simp)
    | some vt =>
      obtain ⟨v, t⟩ := vt
      rw [hnb] at h
      simp only at h
      split at h
      case isFalse => exact absurd h (by simp)
      case isTrue hfields =>
        have hb : asString (JVal.str "offer") = some "offer" := by decide
        have hnb2 : t = "offer" ∧ (asString (j.getField "v")).getD "1.0" = v := by
          unfold normalizeBase at hnb
          rw [ht, hb] at hnb
          simp +decide [knownTypes] at hnb
          exact ⟨hnb.2.symm, hnb.1⟩
        obtain ⟨htb, hv⟩ := hnb2
        subst htb
        cases h
        set msg := offerMsg v "offer" (strField (j.getField "intentId"))
          (strField (j.getField "from")) (strField (j.getField "fee"))
          (strField (j.getField "eta"))
          (optionalIntField (j.getField "reputation"))
          (optionalStrField (j.getField "escrowAddress")) with hmsg
        have hrt : msg.jsonRoundTrip = offerMsgRT v "offer"
            (strField (j.getField "intentId")) (strField (j.getField "from"))
            (strField (j.getField "fee")) (strField (j.getField "eta"))
            (optionalIntField (j.getField "reputation"))
            (optionalStrField (j.getField "escrowAddress")) := by
          rw [hmsg]
          by_cases hr : optionalIntField (j.getField "reputation") = JVal.undef <;>
            by_cases he :
              optionalStrField (j.getField "escrowAddress") = JVal.undef <;>
            simp [offerMsg, offerMsgRT, consIfDef, JVal.jsonRoundTrip, hr, he,
              strField_ne_undef, roundTrip_strField, roundTrip_optionalIntField,
              roundTrip_optionalStrField]
        rw [hrt]
        have gt2 : (offerMsgRT v "offer" (strField (j.getField "intentId"))
            (strField (j.getField "from")) (strField (j.getField "fee"))
            (strField (j.getField "eta"))
            (optionalIntField (j.getField "reputation"))
            (optionalStrField (j.getField "escrowAddress"))).getField "type" =
            .str "offer" := by
          simp +decide [offerMsgRT, JVal.getField]
        simp only [sanitizeMessage, gt2]
        simp only [sanitizeOffer]
        rw [if_pos (by simp [offerMsgRT, JVal.isObject])]
        have hvs : asString (JVal.str v) = some v := by
          rw [← hv]
          exact asString_getD_v _
        have hnbm : normalizeBase (offerMsgRT v "offer"
            (strField (j.getField "intentId")) (strField (j.getField "from"))
            (strField (j.getField "fee")) (strField (j.getField "eta"))
            (optionalIntField (j.getField "reputation"))
            (optionalStrField (j.getField "escrowAddress"))) =
            some (v, "offer") := by
          unfold normalizeBase
          rw [show (offerMsgRT v "offer" (strField (j.getField "intentId"))
              (strField (j.getField "from")) (strField (j.getField "fee"))
              (strField (j.getField "eta"))
              (optionalIntField (j.getField "reputation"))
              (optionalStrField (j.getField "escrowAddress"))).getField "v" =
              .str v from by simp +decide [offerMsgRT, JVal.getField]]
          rw [gt2, hb, hvs]
          simp +decide [knownTypes]
        rw [hnbm]
        simp only
        rw [show (offerMsgRT v "offer" (strField (j.getField "intentId"))
            (strField (j.getField "from")) (strField (j.getField "fee"))
            (strField (j.getField "eta"))
            (optionalIntField (j.getField "reputation"))
            (optionalStrField (j.getField "escrowAddress"))).getField "intentId" =
            strField (j.getField "intentId") from by
          simp +decide [offerMsgRT, JVal.getField]]
        rw [show (offerMsgRT v "offer" (strField (j.getField "intentId"))
            (strField (j.getField "from")) (strField (j.getField "fee"))
            (strField (j.getField "eta"))
            (optionalIntField (j.getField "reputation"))
            (optionalStrField (j.getField "escrowAddress"))).getField "from" =
            strField (j.getField "from") from by
          simp +decide [offerMsgRT, JVal.getField]]
        rw [show (offerMsgRT v "offer" (strField (j.getField "intentId"))
            (strField (j.getField "from")) (strField (j.getField "fee"))
            (strField (j.getField "eta"))
            (optionalIntField (j.getField "reputation"))
            (optionalStrField (j.getField "escrowAddress"))).getField "fee" =
            strField (j.getField "fee") from by
          simp +decide [offerMsgRT, JVal.getField]]
        rw [show (offerMsgRT v "offer" (strField (j.getField "intentId"))
            (strField (j.getField "from")) (strField (j.getField "fee"))
            (strField (j.getField "eta"))
            (optionalIntField (j.getField "reputation"))
            (optionalStrField (j.getField "escrowAddress"))).getField "eta" =
            strField (j.getField "eta") from by
          simp +decide [offerMsgRT, JVal.getField]]
        rw [show (offerMsgRT v "offer" (strField (j.getField "intentId"))
            (strField (j.getField "from")) (strField (j.getField "fee"))
            (strField (j.getField "eta"))
            (optionalIntField (j.getField "reputation"))
            (optionalStrField (j.getField "escrowAddress"))).getField "reputation" =
            optionalIntField (j.getField "reputation") from by
          by_cases hr : optionalIntField (j.getField "reputation") = JVal.undef <;>
            by_cases he :
              optionalStrField (j.getField "escrowAddress") = JVal.undef <;>
            simp +decide [offerMsgRT, consIfDef, JVal.getField, hr, he]]
        rw [show (offerMsgRT v "offer" (strField (j.getField "intentId"))
            (strField (j.getField "from")) (strField (j.getField "fee"))
            (strField (j.getField "eta"))
            (optionalIntField (j.getField "reputation"))
            (optionalStrField (j.getField "escrowAddress"))).getField
              "escrowAddress" =
            optionalStrField (j.getField "escrowAddress") from by
          by_cases hr : optionalIntField (j.getField "reputation") = JVal.undef <;>
            by_cases he :
              optionalStrField (j.getField "escrowAddress") = JVal.undef <;>
            simp +decide [offerMsgRT, consIfDef, JVal.getField, hr, he]]
        rw [strField_strField, strField_strField, strField_strField,
          strField_strField, optionalIntField_stable, optionalStrField_stable]
        have hfields2 : hasFieldsB (offerMsg v "offer"
            (strField (j.getField "intentId")) (strField (j.getField "from"))
            (strField (j.getField "fee")) (strField (j.getField "eta"))
            (if optionalIntField (j.getField "reputation") = JVal.null then
              JVal.undef else optionalIntField (j.getField "reputation"))
            (if optionalStrField (j.getField "escrowAddress") = JVal.null then
              JVal.undef else optionalStrField (j.getField "escrowAddress")))
            ["intentId", "from", "fee", "eta"] = true := by
          have h0 := hfields
          simp +decide [hasFieldsB, offerMsg, JVal.getField] at h0 ⊢
          exact h0
        rw [if_pos hfields2]
        have hright : undefifyOfferNulls msg = offerMsg v "offer"
            (strField (j.getField "intentId")) (strField (j.getField "from"))
            (strField (j.getField "fee")) (strField (j.getField "eta"))
            (if optionalIntField (j.getField "reputation") = JVal.null then
              JVal.undef else optionalIntField (j.getField "reputation"))
            (if optionalStrField (j.getField "escrowAddress") = JVal.null then
              JVal.undef else optionalStrField (j.getField "escrowAddress")) := by
          rw [hmsg]
          unfold undefifyOfferNulls
          rw [if_pos (by simp +decide [offerMsg, JVal.getField])]
          simp +decide [setFieldUndefIfNull, offerMsg]
        rw [hright]

theorem sanitizeIntent_roundTrip (w2 : Int) (j m : JVal) (hu : j.noUndef = true)
    (ht : j.getField "type" = .str "intent")
    (h : sanitizeIntent j = some m) :
    sanitizeMessage w2 m.jsonRoundTrip = some m ∧
      m.getField "type" = .str "intent" := by
  simp only [sanitizeIntent] at h
  split at h
  case isFalse => exact absurd h (by simp)
  case isTrue hobj =>
    cases hnb : normalizeBase j with
    | none => rw [hnb] at h; exact absurd h (by simp)
    | some vt =>
      obtain ⟨v, t⟩ := vt
      rw [hnb] at h
      simp only at h
      split at h
      case isTrue => exact absurd h (by simp)
      case isFalse hminrep =>
        split at h
        case isTrue => exact absurd h (by simp)
        case isFalse hdeadline =>
          split at h
          case isFalse => exact absurd h (by simp)
          case isTrue hfields =>
            have hb : asString (JVal.str "intent") = some "intent" := by decide
            have hnb2 : t = "intent" ∧
                (asString (j.getField "v")).getD "1.0" = v := by
              unfold normalizeBase at hnb
              rw [ht, hb] at hnb
              simp +decide [knownTypes] at hnb
              exact ⟨hnb.2.symm, hnb.1⟩
            obtain ⟨htb, hv⟩ := hnb2
            subst htb
            cases h
            refine ⟨?_, by simp +decide [intentMsg, JVal.getField]⟩
            have hmr : minRepField (j.getField "minReputation") ≠ .null := by
              intro he
              simp [he] at hminrep
            set msg := intentMsg v "intent" (strField (j.getField "id"))
              (strField (j.getField "from")) (strField (j.getField "skill"))
              (payloadField (j.getField "payload"))
              (strField (j.getField "budget"))
              (intFieldOrNull (j.getField "deadline"))
              (minRepField (j.getField "minReputation")) with hmsg
            have hnu : msg.noUndef = true := by
              rw [hmsg]
              simp [intentMsg, JVal.noUndef, noUndef_strField,
                noUndef_intFieldOrNull, noUndef_minRepField,
                noUndef_payloadField hu]
            rw [jsonRoundTrip_of_noUndef hnu]
            have hgt : msg.getField "type" = .str "intent" := by
              rw [hmsg]
              simp +decide [intentMsg, JVal.getField]
            simp only [sanitizeMessage, hgt]
            simp only [sanitizeIntent]
            rw [if_pos (by rw [hmsg]; simp [intentMsg, JVal.isObject])]
            have hvs : asString (JVal.str v) = some v := by
              rw [← hv]
              exact asString_getD_v _
            have hnbm : normalizeBase msg = some (v, "intent") := by
              unfold normalizeBase
              rw [show msg.getField "v" = .str v from by
                rw [hmsg]; simp +decide [intentMsg, JVal.getField]]
              rw [hgt, hb, hvs]
              simp +decide [knownTypes]
            rw [hnbm]
            simp only
            rw [show msg.getField "minReputation" =
                minRepField (j.getField "minReputation") from by
              rw [hmsg]; simp +decide [intentMsg, JVal.getField]]
            rw [show msg.getField "deadline" =
                intFieldOrNull (j.getField "deadline") from by
              rw [hmsg]; simp +decide [intentMsg, JVal.getField]]
            rw [show msg.getField "id" = strField (j.getField "id") from by
              rw [hmsg]; simp +decide [intentMsg, JVal.getField]]
            rw [show msg.getField "from" = strField (j.getField "from") from by
              rw [hmsg]; simp +decide [intentMsg, JVal.getField]]
            rw [show msg.getField "skill" = strField (j.getField "skill") from by
              rw [hmsg]; simp +decide [intentMsg, JVal.getField]]
            rw [show msg.getField "payload" =
                payloadField (j.getField "payload") from by
              rw [hmsg]; simp +decide [intentMsg, JVal.getField]]
            rw [show msg.getField "budget" = strField (j.getField "budget") from by
              rw [hmsg]; simp +decide [intentMsg, JVal.getField]]
            rw [minRepField_stable_of_ne_null _ hmr, intFieldOrNull_stable,
              strField_strField, strField_strField, strField_strField,
              payloadField_payloadField, strField_strField]
            rw [if_neg hminrep, if_neg hdeadline, if_pos hfields]

/-! ## C3 — parse/serialize round trip -/

theorem getField_setFieldUndefIfNull_ne (m : JVal) (key other : String)
    (h : other ≠ key) :
    (setFieldUndefIfNull m key).getField other = m.getField other := by
  induction m with
  | objCons k v t ihv iht =>
    by_cases hk : k = key
    · subst hk
      simp [setFieldUndefIfNull, JVal.getField, Ne.symm h]
    · simp only [setFieldUndefIfNull, if_neg hk]
      by_cases ho : k = other <;> simp [JVal.getField, ho, iht]
  | _ => simp [setFieldUndefIfNull]

theorem setFieldUndefIfNull_idem (m : JVal) (key : String) :
    setFieldUndefIfNull (setFieldUndefIfNull m key) key =
      setFieldUndefIfNull m key := by
  induction m with
  | objCons k v t ihv iht =>
    by_cases hk : k = key
    · subst hk
      by_cases hv : v = JVal.null <;>
        simp [setFieldUndefIfNull, hv]
    · simp [setFieldUndefIfNull, hk, iht]
  | _ => simp [setFieldUndefIfNull]

theorem setFieldUndefIfNull_comm (m : JVal) (k1 k2 : String) (h : k1 ≠ k2) :
    setFieldUndefIfNull (setFieldUndefIfNull m k1) k2 =
      setFieldUndefIfNull (setFieldUndefIfNull m k2) k1 := by
  induction m with
  | objCons k v t ihv iht =>
    by_cases h1 : k = k1
    · subst h1
      simp [setFieldUndefIfNull, h, Ne.symm h]
    · by_cases h2 : k = k2
      · subst h2
        simp [setFieldUndefIfNull, h1, Ne.symm h]
      · simp [setFieldUndefIfNull, h1, h2, iht]
  | _ => simp [setFieldUndefIfNull]

theorem undefifyOfferNulls_idem (m : JVal) :
    undefifyOfferNulls (undefifyOfferNulls m) = undefifyOfferNulls m := by
  unfold undefifyOfferNulls
  by_cases h : m.getField "type" = .str "offer"
  · rw [if_pos h]
    have h2 : (setFieldUndefIfNull (setFieldUndefIfNull m "reputation")
        "escrowAddress").getField "type" = .str "offer" := by
      rw [getField_setFieldUndefIfNull_ne _ _ _ (by decide),
        getField_setFieldUndefIfNull_ne _ _ _ (by decide)]
      exact h
    rw [if_pos h2]
    rw [setFieldUndefIfNull_comm (setFieldUndefIfNull m "reputation")
      "escrowAddress" "reputation" (by decide)]
    rw [setFieldUndefIfNull_idem m "reputation"]
    rw [setFieldUndefIfNull_idem]
  · rw [if_neg h, if_neg h]

/-- C3 counterexample.  The offer body `{"type":"offer", …,
"escrowAddress":5}` parses to a message whose optional `escrowAddress` is
`null` (present but not a string); after one serialize/parse round trip the
field comes back `undefined` (absent), so `parse(serialize(m))` is not equal
to `m` — the `escrowAddress` field itself differs, independently of key
order. -/
theorem c3_offer_null_field_not_stable :
    parseMeshMessage 0 c3OfferInput = some c3OfferParsed ∧
    c3OfferParsed.getField "escrowAddress" = JVal.null ∧
    parseMeshMessage 7 c3OfferParsed.jsonRoundTrip = some c3OfferReparsed ∧
    c3OfferReparsed.getField "escrowAddress" = JVal.undef ∧
    c3OfferReparsed ≠ c3OfferParsed := by
  decide

/-- C3 (amended): for every `undefined`-free JSON value `j` (every
`JSON.parse` output) whose parse succeeds with message `m`, serializing and
re-parsing at any later time yields exactly `undefifyOfferNulls m`: the
identical message except that an offer's optional `reputation` /
`escrowAddress` fields collapse from `null` to absent.  For the other five
kinds (and offers without such `null` fields) the round trip is the identity,
and one round trip is a projection — applying it again changes nothing. -/
theorem c3_roundtrip_up_to_offer_nulls (w w2 : Int) (j m : JVal)
    (hu : j.noUndef = true) (h : parseMeshMessage w j = some m) :
    parseMeshMessage w2 m.jsonRoundTrip = some (undefifyOfferNulls m) ∧
    undefifyOfferNulls (undefifyOfferNulls m) = undefifyOfferNulls m := by
  refine ⟨?_, undefifyOfferNulls_idem m⟩
  unfold parseMeshMessage at h ⊢
  unfold sanitizeMessage at h
  split at h
  next heq =>
    obtain ⟨hmain, htype⟩ := sanitizeBeacon_roundTrip w2 j m heq h
    have hun : undefifyOfferNulls m = m := by
      unfold undefifyOfferNulls
      rw [if_neg (by simp [htype])]
    rw [hun]
    exact hmain
  next heq =>
    obtain ⟨hmain, htype⟩ := sanitizeIntent_roundTrip w2 j m hu heq h
    have hun : undefifyOfferNulls m = m := by
      unfold undefifyOfferNulls
      rw [if_neg (by simp [htype])]
    rw [hun]
    exact hmain
  next heq =>
    exact sanitizeOffer_roundTrip w2 j m heq h
  next heq =>
    obtain ⟨hmain, htype⟩ := sanitizeAccept_roundTrip w w2 j m heq h
    have hun : undefifyOfferNulls m = m := by
      unfold undefifyOfferNulls
      rw [if_neg (by simp [htype])]
    rw [hun]
    exact hmain
  next heq =>
    obtain ⟨hmain, htype⟩ := sanitizeSettle_roundTrip w2 j m heq h
    have hun : undefifyOfferNulls m = m := by
      unfold undefifyOfferNulls
      rw [if_neg (by simp [htype])]
    rw [hun]
    exact hmain
  next heq =>
    obtain ⟨hmain, htype⟩ := sanitizeDispute_roundTrip w2 j m heq h
    have hun : undefifyOfferNulls m = m := by
      unfold undefifyOfferNulls
      rw [if_neg (by simp [htype])]
    rw [hun]
    exact hmain
  next => exact absurd h (by simp)

/-- C3 witness: a settle message round-trips exactly. -/
theorem c3_roundtrip_witness :
    c3SettleInput.noUndef = true ∧
    (parseMeshMessage 3 c3SettleInput).isSome = true ∧
    ∀ m, parseMeshMessage 3 c3SettleInput = some m →
      parseMeshMessage 11 m.jsonRoundTrip = some (undefifyOfferNulls m) := by
  refine ⟨by decide, by decide, fun m hm => ?_⟩
  exact (c3_roundtrip_up_to_offer_nulls 3 11 c3SettleInput m (by decide) hm).1

/-- C9 counterexample: an intent message body with every field except
`minReputation` is not rejected — `sanitizeIntent` defaults the missing key
to `0` (router.js:175) and the parse succeeds, so `minReputation` is not a
required field. -/
theorem c9_missing_minReputation_still_parses :
    c9IntentNoMinRep.getField "minReputation" = JVal.undef ∧
    (parseMeshMessage 0 c9IntentNoMinRep).isSome = true ∧
    ((parseMeshMessage 0 c9IntentNoMinRep).getD JVal.null).getField
      "minReputation" = JVal.num 0 := by
  exact ⟨by decide, by decide, by decide⟩

/-- C9 (amended): the required fields of an intent are `id`, `from`, `skill`,
`budget` and `deadline`: whenever any of them is absent from the parsed JSON
object, `parseMeshMessage` returns `null`.  (`minReputation`, which the claim
also lists as required, instead defaults to `0` when absent.) -/
theorem c9_required_fields_absent_rejected (w : Int) (j : JVal)
    (ht : j.getField "type" = JVal.str "intent")
    (hmiss : j.getField "id" = JVal.undef ∨ j.getField "from" = JVal.undef ∨
      j.getField "skill" = JVal.undef ∨ j.getField "budget" = JVal.undef ∨
      j.getField "deadline" = JVal.undef) :
    parseMeshMessage w j = none := by
  unfold parseMeshMessage sanitizeMessage
  rw [ht]
  show sanitizeIntent j = none
  unfold sanitizeIntent
  by_cases hobj : j.isObject = true
  · rw [if_pos hobj]
    cases hnb : normalizeBase j with
    | none => rfl
    | some vt =>
      obtain ⟨v, t⟩ := vt
      rcases hmiss with h | h | h | h | h
      · have hs : strField (j.getField "id") = JVal.null := by rw [h]; rfl
        have hhf : hasFieldsB (intentMsg v t
            (strField (j.getField "id")) (strField (j.getField "from"))
            (strField (j.getField "skill")) (payloadField (j.getField "payload"))
            (strField (j.getField "budget"))
            (intFieldOrNull (j.getField "deadline"))
            (minRepField (j.getField "minReputation")))
            ["id", "from", "skill", "budget", "deadline"] = false := by
          simp +decide [hasFieldsB, intentMsg, JVal.getField, hs]
        simp +decide [hhf]
      · have hs : strField (j.getField "from") = JVal.null := by rw [h]; rfl
        have hhf : hasFieldsB (intentMsg v t
            (strField (j.getField "id")) (strField (j.getField "from"))
            (strField (j.getField "skill")) (payloadField (j.getField "payload"))
            (strField (j.getField "budget"))
            (intFieldOrNull (j.getField "deadline"))
            (minRepField (j.getField "minReputation")))
            ["id", "from", "skill", "budget", "deadline"] = false := by
          simp +decide [hasFieldsB, intentMsg, JVal.getField, hs]
        simp +decide [hhf]
      · have hs : strField (j.getField "skill") = JVal.null := by rw [h]; rfl
        have hhf : hasFieldsB (intentMsg v t
            (strField (j.getField "id")) (strField (j.getField "from"))
            (strField (j.getField "skill")) (payloadField (j.getField "payload"))
            (strField (j.getField "budget"))
            (intFieldOrNull (j.getField "deadline"))
            (minRepField (j.getField "minReputation")))
            ["id", "from", "skill", "budget", "deadline"] = false := by
          simp +decide [hasFieldsB, intentMsg, JVal.getField, hs]
        simp +decide [hhf]
      · have hs : strField (j.getField "budget") = JVal.null := by rw [h]; rfl
        have hhf : hasFieldsB (intentMsg v t
            (strField (j.getField "id")) (strField (j.getField "from"))
            (strField (j.getField "skill")) (payloadField (j.getField "payload"))
            (strField (j.getField "budget"))
            (intFieldOrNull (j.getField "deadline"))
            (minRepField (j.getField "minReputation")))
            ["id", "from", "skill", "budget", "deadline"] = false := by
          simp +decide [hasFieldsB, intentMsg, JVal.getField, hs]
        simp +decide [hhf]
      · have hd : intFieldOrNull (j.getField "deadline") = JVal.null := by
          rw [h]; rfl
        simp +decide [hd]
  · rw [if_neg hobj]

/-- C9 witness: a concrete intent body with no `id` field is rejected. -/
theorem c9_required_fields_absent_rejected_witness :
    parseMeshMessage 5 c9IntentNoId = none :=
  c9_required_fields_absent_rejected 5 c9IntentNoId (by decide)
    (Or.inl (by decide))

end Mesh
